import Mathlib

/-!
Verification model of the reversible-mutation accessibility engine in
`a11y.user.js` (github.com/athee06/a11y-engine).

The engine's state is shallowly embedded as follows.

* DOM elements are indexed by natural numbers.  An element carries its
  mutable attribute map (`String → Option String`, `none` = attribute
  absent), its mutable inline-style map (`String → String`, `""` = property
  unset, matching the `el.style[prop] || ''` semantics of the source), a
  `connected` flag (`Node.isConnected`), a count of attached event
  listeners, and a set of immutable "feature" fields.  The feature fields
  are oracles for the parts of the source that read data the engine never
  writes: selector matches (`querySelectorAll` over tag names and class
  strings), computed-style visibility, `innerText`, cross-node lookups that
  resolve through immutable markup (label `for` targets, error siblings,
  `nextElementSibling`), and the label-inference heuristics of
  `enhanceUnlabeledButtons` / `enhanceUnlabeledLinks`, which the spec
  itself treats as an out-of-scope pluggable rule set.  Attribute reads
  performed by the source (`hasAttribute` / `getAttribute`) always go
  through the mutable attribute map.

* The change ledger (`changeLog` in the source) is an association list from
  element index to a ledger entry; an entry stores captured original
  attribute values (`Option String`, `none` = the "absent" sentinel) and
  captured original style values, in capture order, mirroring the plain JS
  objects `{ attrs: {}, styles: {} }` keyed by insertion order.

* Engine-level state (`a11yEnabled`, `enhancementScheduled`,
  `pendingItemCount`, `mutationCounter`, the singleton element references,
  the mutation observer) is embedded as fields of one state record.  The
  DOM nodes the engine itself creates (injected stylesheet, skip link, live
  region) are represented by presence flags plus creation counters so that
  "no duplicate singleton" claims are expressible; `requestAnimationFrame`
  is modelled by an explicit `fireFrame` step executing the queued callback
  of `scheduleEnhancements`, and announcements are recorded in a log.
-/

namespace A11y

/-- Association-list lookup by key (JS object / Map key access). -/
def alookup {α β : Type} [DecidableEq α] (a : α) : List (α × β) → Option β
  | [] => none
  | p :: l => if p.1 = a then some p.2 else alookup a l

/-- Pointwise update of a map (one JS property / attribute assignment). -/
def upd {α β : Type} [DecidableEq α] (f : α → β) (k : α) (v : β) : α → β :=
  fun x => if x = k then v else f x

/-- Replay of a list of captured (key, original value) pairs over a map, in
capture order: the semantics of the `Object.keys(...).forEach` restore loops
of `clearAllTrackedChanges`. -/
def restoreL {β : Type} (l : List (String × β)) (f : String → β) : String → β :=
  l.foldl (fun g p => upd g p.1 p.2) f

/-- One ledger entry: the `{ attrs: {}, styles: {} }` record of the source.
`attrs` maps an attribute name to its captured original (`none` is the
"absent" sentinel, `null` in the source); `styles` maps a style property to
its captured original inline value. -/
structure Entry where
  attrs : List (String × Option String)
  styles : List (String × String)
deriving DecidableEq

instance : Inhabited Entry := ⟨⟨[], []⟩⟩

/-- A DOM element: mutable attribute/style/connectivity/listener state plus
immutable feature oracles (see the module docstring). -/
structure Elem where
  attrs : String → Option String
  styles : String → String
  connected : Bool
  listeners : Nat
  baseVisible : Bool
  innerTextEmpty : Bool
  btnTagOrClass : Bool
  btnLabel : String
  linkCand : Bool
  linkLabel : String
  isLabelEl : Bool
  labelStar : Bool
  labelTarget : Option Nat
  isInput : Bool
  assocLabel : Bool
  errSibling : Option Nat
  errWords : Bool
  divSpanCand : Bool
  onclickProp : Bool
  btnClassMatch : Bool
  dropCand : Bool
  nextSibling : Option Nat
  notifCand : Bool
  sliderCand : Bool
  sliderMin : Int
  sliderMax : Int
  sliderVal : Int
  sidebarCand : Bool
  tablistCand : Bool
  tabItems : List Nat
  hrefHashTarget : Option Nat
  panelFallback : Option Nat
  dialogCand : Bool
  dialogHeading : Option Nat
  dialogHasFocusable : Bool
  stickyDupe : Bool

/-- Whole engine state: the script-level globals of `a11y.user.js` plus the
document (element map and document-order index list), the ledger, ghost
creation counters for the singleton nodes, and ghost logs of announcements
and of executed scheduled global passes. -/
@[ext] structure St where
  a11yEnabled : Bool
  observerAttached : Bool
  enhancementScheduled : Bool
  skipLinkPresent : Bool
  liveRegionPresent : Bool
  globalStylePresent : Bool
  mutationCounter : Nat
  pendingItemCount : Nat
  freshCounter : Nat
  nodes : List Nat
  mainCand : Nat
  headerCand : Option Nat
  navCand : Option Nat
  mainRegionCand : Option Nat
  footerCand : Option Nat
  dom : Nat → Elem
  changeLog : List (Nat × Entry)
  styleNodeCount : Nat
  skipLinkNodeCount : Nat
  observerAttachCount : Nat
  announceLog : List String
  passLog : List Nat

/-- Update of one element in the document. -/
def updDom (d : Nat → Elem) (n : Nat) (e : Elem) : Nat → Elem :=
  fun m => if m = n then e else d m

/-- Attribute read: `el.getAttribute(attr)` (with `none` for a missing
attribute, i.e. `el.hasAttribute(attr) ? el.getAttribute(attr) : null`). -/
def getAttr (s : St) (n : Nat) (attr : String) : Option String :=
  (s.dom n).attrs attr

/-- Attribute presence: `el.hasAttribute(attr)`. -/
def hasAttr (s : St) (n : Nat) (attr : String) : Bool :=
  (getAttr s n attr).isSome

/-- Inline style read: `el.style[prop] || ''`. -/
def getStyle (s : St) (n : Nat) (prop : String) : String :=
  (s.dom n).styles prop

/-- The ledger entry currently recorded for an element, defaulting to the
empty entry (used to state invariants; the source reads entries only after
`ensureEntry`). -/
def entryFor (s : St) (n : Nat) : Entry :=
  (alookup n s.changeLog).getD ⟨[], []⟩

/-- Source `ensureEntry(el)`: create the `{ attrs: {}, styles: {} }` record
for `el` in `changeLog` unless one exists. -/
def ensureEntry (s : St) (n : Nat) : St :=
  if (alookup n s.changeLog).isSome then s
  else { s with changeLog := s.changeLog ++ [(n, ⟨[], []⟩)] }

/-- Rewrite the ledger entry of one element in place (`changeLog.get(el)`
mutation in the source). -/
def updateEntry (log : List (Nat × Entry)) (n : Nat) (f : Entry → Entry) :
    List (Nat × Entry) :=
  log.map (fun p => if p.1 = n then (p.1, f p.2) else p)

/-- Entry-level first-write capture for an attribute: if the entry has no
own property for `attr` yet, append the current value `cur` (or the absent
sentinel). -/
def captureAttrFn (cur : Option String) (attr : String) (e : Entry) : Entry :=
  if (alookup attr e.attrs).isSome then e
  else { e with attrs := e.attrs ++ [(attr, cur)] }

/-- Entry-level first-write capture for a style property. -/
def captureStyleFn (cur : String) (prop : String) (e : Entry) : Entry :=
  if (alookup prop e.styles).isSome then e
  else { e with styles := e.styles ++ [(prop, cur)] }

/-- First-write capture for an attribute, from `setAttrTracked` /
`removeAttrTracked`: if `entry.attrs` has no own property for `attr`,
store the element's current value (or the absent sentinel). -/
def trackAttrCapture (s : St) (n : Nat) (attr : String) : St :=
  let s1 := ensureEntry s n
  { s1 with changeLog :=
      updateEntry s1.changeLog n (captureAttrFn ((s1.dom n).attrs attr) attr) }

/-- Raw attribute write: `el.setAttribute` (`some v`) or
`el.removeAttribute` (`none`). -/
def putDomAttr (s : St) (n : Nat) (attr : String) (w : Option String) : St :=
  let e := s.dom n
  { s with dom := updDom s.dom n { e with attrs := upd e.attrs attr w } }

/-- Source `setAttrTracked(el, attr, value)`: capture-then-write. -/
def setAttrTracked (s : St) (n : Nat) (attr v : String) : St :=
  putDomAttr (trackAttrCapture s n attr) n attr (some v)

/-- Source `removeAttrTracked(el, attr)`: capture-then-remove. -/
def removeAttrTracked (s : St) (n : Nat) (attr : String) : St :=
  putDomAttr (trackAttrCapture s n attr) n attr none

/-- First-write capture for a style property, from `setStyleTracked`; also
performed directly on dropdown panels by `enhanceLocalDropdowns`
(`panelEntry.styles.display = panel.style.display || ''`). -/
def trackStyleCapture (s : St) (n : Nat) (prop : String) : St :=
  let s1 := ensureEntry s n
  { s1 with changeLog :=
      updateEntry s1.changeLog n (captureStyleFn ((s1.dom n).styles prop) prop) }

/-- Raw inline style write: `el.style[prop] = v`. -/
def putDomStyle (s : St) (n : Nat) (prop v : String) : St :=
  let e := s.dom n
  { s with dom := updDom s.dom n { e with styles := upd e.styles prop v } }

/-- Source `setStyleTracked(el, prop, value)`: capture-then-write. -/
def setStyleTracked (s : St) (n : Nat) (prop v : String) : St :=
  putDomStyle (trackStyleCapture s n prop) n prop v

/-- Restore one element from its ledger entry: replay captured attribute
originals (re-set a captured value, remove on the absent sentinel) and
captured style originals. -/
def restoreElem (ent : Entry) (e : Elem) : Elem :=
  { e with attrs := restoreL ent.attrs e.attrs
         , styles := restoreL ent.styles e.styles }

/-- The restore loop of `clearAllTrackedChanges`: every ledger entry is
replayed onto its element (the `isElement` guard of the source is vacuous
here because ledger keys are elements by construction). -/
def rollbackFold (log : List (Nat × Entry)) (d : Nat → Elem) : Nat → Elem :=
  log.foldl (fun dd p => updDom dd p.1 (restoreElem p.2 (dd p.1))) d

/-- Source `clearAllTrackedChanges()`: restore every entry, then clear the
ledger. -/
def clearAllTrackedChanges (s : St) : St :=
  { s with dom := rollbackFold s.changeLog s.dom, changeLog := [] }

/-- Source `garbageCollect()`: drop every ledger entry whose element is no
longer connected to the live tree. -/
def garbageCollect (s : St) : St :=
  { s with changeLog := s.changeLog.filter (fun p => (s.dom p.1).connected) }

/-- External tree mutation: an element is removed from the live tree, so
`isConnected` becomes false (its attribute and style state is kept, as for
a real detached node). -/
def removeFromTree (s : St) (n : Nat) : St :=
  let e := s.dom n
  { s with dom := updDom s.dom n { e with connected := false } }

/-- A tracked write through the Tracked-Write API: the three operations the
enhancement rules are allowed to use. -/
inductive WOp where
  | setA (n : Nat) (attr v : String)
  | remA (n : Nat) (attr : String)
  | setS (n : Nat) (prop v : String)

/-- Apply one tracked write. -/
def applyWOp (s : St) : WOp → St
  | .setA n attr v => setAttrTracked s n attr v
  | .remA n attr => removeAttrTracked s n attr
  | .setS n prop v => setStyleTracked s n prop v

/-- Apply a sequence of tracked writes in order. -/
def applyWOps (s : St) (ops : List WOp) : St :=
  ops.foldl applyWOp s

/-! ### Enhancement rules (the Dispatcher's rule set)

Each rule follows the source function of the same name: the `a11yEnabled`
guard, the candidate selector (immutable selector parts are feature
fields, attribute-dependent parts read the mutable attribute map), and the
per-node guard/write sequence.  `querySelectorAll` snapshots its candidate
list before iterating, so each rule filters `nodes` against the incoming
state and then folds its per-node step. -/

/-- The `data-a11y-flag` marker attribute family of the source. -/
def A11Y_FLAG : String := "data-a11y-flag"

/-- Source `isVisible(el)`: computed-style visibility.  The inline-style
and `hidden`-attribute contributions (the only ones the engine itself can
change) are read from mutable state; everything else (stylesheets,
geometry, opacity) is the `baseVisible` oracle. -/
def isVisibleE (e : Elem) : Bool :=
  e.baseVisible && !(e.styles "display" == "none") && !(e.attrs "hidden").isSome

/-- Visibility of an element of the document. -/
def isVisible (s : St) (n : Nat) : Bool :=
  isVisibleE (s.dom n)

/-- Source `elementHasOwnAccessibility(el)`. -/
def elementHasOwnAccessibility (s : St) (n : Nat) : Bool :=
  hasAttr s n "role" || hasAttr s n "aria-label" ||
    hasAttr s n "aria-labelledby" || hasAttr s n "aria-describedby"

/-- Source `uniqueId(prefix)` result.  The source draws on `Math.random()`
and `Date.now()`; the model uses a deterministic fresh counter (read here,
bumped by `bumpFresh`). -/
def freshName (s : St) (pre : String) : String :=
  pre ++ "-" ++ toString s.freshCounter

/-- Advance the fresh-id generator (the nondeterminism of `uniqueId`). -/
def bumpFresh (s : St) : St :=
  { s with freshCounter := s.freshCounter + 1 }

/-- Source `addEventListener` on an element: the listener count is the
observable the idempotence property talks about. -/
def addListener (s : St) (n : Nat) : St :=
  let e := s.dom n
  { s with dom := updDom s.dom n { e with listeners := e.listeners + 1 } }

/-- Candidate test of `enhanceUnlabeledButtons`: selector
`button, [role="button"], [onclick], [class*="btn"], [class*="button"]`.
The tag/class parts are immutable (`btnTagOrClass`); the `[role="button"]`
and `[onclick]` parts read live attributes. -/
def isBtnCandidate (s : St) (n : Nat) : Bool :=
  (s.dom n).btnTagOrClass || getAttr s n "role" == some "button" ||
    hasAttr s n "onclick"

/-- Per-candidate body of `enhanceUnlabeledButtons`: skip invisible,
already-labelled or visibly-texted candidates, otherwise set `aria-label`
to the heuristic label (heuristic steps 1-9 of the source; the final
fallback `"Button"` guarantees a label, so the write is unconditional). -/
def btnStep (s : St) (n : Nat) : St :=
  if !(isVisible s n) then s
  else if hasAttr s n "aria-label" || hasAttr s n "aria-labelledby" then s
  else if !(s.dom n).innerTextEmpty then s
  else setAttrTracked s n "aria-label" (s.dom n).btnLabel

/-- Source `enhanceUnlabeledButtons(root)`. -/
def enhanceUnlabeledButtons (s : St) : St :=
  if !s.a11yEnabled then s
  else (s.nodes.filter (fun n => isBtnCandidate s n)).foldl btnStep s

/-- Per-candidate body of `enhanceUnlabeledLinks` (selector `a[href]` is
the immutable `linkCand`); the heuristic chain ends in the fallback
`"Link"`, so a write always happens past the guards. -/
def linkStep (s : St) (n : Nat) : St :=
  if !(isVisible s n) then s
  else if hasAttr s n "aria-label" || hasAttr s n "aria-labelledby" then s
  else if !(s.dom n).innerTextEmpty then s
  else if getAttr s n "aria-hidden" == some "true" then s
  else setAttrTracked s n "aria-label" (s.dom n).linkLabel

/-- Source `enhanceUnlabeledLinks(root)`. -/
def enhanceUnlabeledLinks (s : St) : St :=
  if !s.a11yEnabled then s
  else (s.nodes.filter (fun n => (s.dom n).linkCand)).foldl linkStep s

/-- Required-field part of `enhanceInputsAndForms`: a label whose text
contains `*` marks its associated control `aria-required` (the `for`-id /
nested-control resolution is the immutable `labelTarget`). -/
def labelStep (s : St) (n : Nat) : St :=
  if !(s.dom n).labelStar then s
  else
    match (s.dom n).labelTarget with
    | none => s
    | some i =>
        if hasAttr s i "aria-required" then s
        else setAttrTracked s i "aria-required" "true"

/-- Placeholder-label part of `enhanceInputsAndForms`. -/
def placeholderStep (s : St) (n : Nat) : St :=
  if !(isVisible s n) then s
  else if elementHasOwnAccessibility s n then s
  else if (s.dom n).assocLabel then s
  else
    match getAttr s n "placeholder" with
    | none => s
    | some p =>
        if p.trim ≠ "" && !(hasAttr s n "aria-label") then
          setAttrTracked s n "aria-label" p.trim
        else s

/-- Error-association part of `enhanceInputsAndForms`: `errSibling` is the
`.error`-class sibling with nonempty text, `errWords` its
`required|invalid|error|must|missing` match. -/
def errorStep (s : St) (n : Nat) : St :=
  if !(isVisible s n) then s
  else
    match (s.dom n).errSibling with
    | none => s
    | some er =>
        let s1 := if hasAttr s er "id" then s
          else setAttrTracked (bumpFresh s) er "id" (freshName s "a11y-error")
        let s2 := if hasAttr s1 n "aria-describedby" then s1
          else setAttrTracked s1 n "aria-describedby" ((getAttr s1 er "id").getD "")
        if (s2.dom er).errWords && !(hasAttr s2 n "aria-invalid") then
          setAttrTracked s2 n "aria-invalid" "true"
        else s2

/-- Source `enhanceInputsAndForms(root)`: the three passes over labels and
inputs, in source order. -/
def enhanceInputsAndForms (s : St) : St :=
  if !s.a11yEnabled then s
  else
    let s1 := (s.nodes.filter (fun n => (s.dom n).isLabelEl)).foldl labelStep s
    let s2 := (s1.nodes.filter (fun n => (s1.dom n).isInput)).foldl placeholderStep s1
    (s2.nodes.filter (fun n => (s2.dom n).isInput)).foldl errorStep s2

/-- Per-candidate body of `enhanceClickableRoles` (selector `div, span` is
the immutable `divSpanCand`; the BUTTON/A tag exclusion is vacuous for
those candidates).  `clickable` combines the `el.onclick` property oracle,
the live `onclick` attribute, and the class-based matcher. -/
def clickableStep (s : St) (n : Nat) : St :=
  if !(isVisible s n) then s
  else if elementHasOwnAccessibility s n then s
  else
    let clickable :=
      (s.dom n).onclickProp || hasAttr s n "onclick" || (s.dom n).btnClassMatch
    if clickable then
      let s1 := setAttrTracked s n "role" "button"
      if hasAttr s1 n "tabindex" then s1 else setAttrTracked s1 n "tabindex" "0"
    else s

/-- Source `enhanceClickableRoles(root)`. -/
def enhanceClickableRoles (s : St) : St :=
  if !s.a11yEnabled then s
  else (s.nodes.filter (fun n => (s.dom n).divSpanCand)).foldl clickableStep s

/-- Source `document.getElementById(cid)`: scan the document for the first
element whose live `id` attribute is `cid`. -/
def findByIdAttr (s : St) (cid : String) : Option Nat :=
  s.nodes.find? (fun n => getAttr s n "id" == some cid)

/-- Per-toggle body of `enhanceLocalDropdowns`: flag-guarded wiring of a
toggle and its panel (`aria-controls` id lookup, else `nextElementSibling`),
including the direct first-capture of the panel's `display` style and the
two event listeners (click, keydown) attached to the toggle.  The panel
resolution (`aria-controls` id lookup, else `nextElementSibling`) is split
out as `resolveDropdownPanel`. -/
def resolveDropdownPanel (s : St) (n : Nat) : Option Nat :=
  match getAttr s n "aria-controls" with
  | some cid =>
      match findByIdAttr s cid with
      | some p => some p
      | none => (s.dom n).nextSibling
  | none => (s.dom n).nextSibling

def dropdownStep (s : St) (n : Nat) : St :=
  if getAttr s n (A11Y_FLAG ++ "-dropdown") == some "1" then s
  else
    let s := setAttrTracked s n (A11Y_FLAG ++ "-dropdown") "1"
    match resolveDropdownPanel s n with
    | none => s
    | some p =>
        let s := if hasAttr s p "id" then s
          else setAttrTracked (bumpFresh s) p "id" (freshName s "a11y-panel")
        let s :=
          if elementHasOwnAccessibility s n then s
          else
            let s := setAttrTracked s n "role" "button"
            let s := if hasAttr s n "tabindex" then s
              else setAttrTracked s n "tabindex" "0"
            setAttrTracked s n "aria-controls" ((getAttr s p "id").getD "")
        let origVisible := isVisible s p
        let s := trackStyleCapture s p "display"
        let s := if hasAttr s n "aria-expanded" then s
          else setAttrTracked s n "aria-expanded" (if origVisible then "true" else "false")
        let s :=
          if !origVisible && getStyle s p "display" == "" then
            setAttrTracked (setStyleTracked s p "display" "none") p "hidden" "hidden"
          else s
        addListener (addListener s n) n

/-- Source `enhanceLocalDropdowns(root)`. -/
def enhanceLocalDropdowns (s : St) : St :=
  if !s.a11yEnabled then s
  else (s.nodes.filter (fun n => (s.dom n).dropCand)).foldl dropdownStep s

/-- Per-candidate body of `enhanceLocalLiveRegions`. -/
def liveStep (s : St) (n : Nat) : St :=
  if !(isVisible s n) then s
  else if getAttr s n (A11Y_FLAG ++ "-live") == some "1" then s
  else
    let s := setAttrTracked s n (A11Y_FLAG ++ "-live") "1"
    if elementHasOwnAccessibility s n then s
    else setAttrTracked (setAttrTracked s n "role" "status") n "aria-live" "polite"

/-- Source `enhanceLocalLiveRegions(root)`. -/
def enhanceLocalLiveRegions (s : St) : St :=
  if !s.a11yEnabled then s
  else (s.nodes.filter (fun n => (s.dom n).notifCand)).foldl liveStep s

/-- Per-candidate body of `enhanceSliders`: flag, role, tabindex, ARIA
value attributes from the `data-min`/`data-max`/`data-value` features
(`Number(...)` conversions), one keydown listener. -/
def sliderStep (s : St) (n : Nat) : St :=
  if getAttr s n (A11Y_FLAG ++ "-slider") == some "1" then s
  else
    let s := setAttrTracked s n (A11Y_FLAG ++ "-slider") "1"
    let s := setAttrTracked s n "role" "slider"
    let s := if hasAttr s n "tabindex" then s else setAttrTracked s n "tabindex" "0"
    let e := s.dom n
    let s := setAttrTracked s n "aria-valuemin" (toString e.sliderMin)
    let s := setAttrTracked s n "aria-valuemax" (toString e.sliderMax)
    let s := setAttrTracked s n "aria-valuenow" (toString e.sliderVal)
    addListener s n

/-- Source `enhanceSliders(root)`. -/
def enhanceSliders (s : St) : St :=
  if !s.a11yEnabled then s
  else (s.nodes.filter (fun n => (s.dom n).sliderCand)).foldl sliderStep s

/-- Source `runLocalEnhancements(root)`: the seven local rules in order. -/
def runLocalEnhancements (s : St) : St :=
  enhanceSliders (enhanceLocalLiveRegions (enhanceLocalDropdowns
    (enhanceClickableRoles (enhanceInputsAndForms
      (enhanceUnlabeledLinks (enhanceUnlabeledButtons s))))))

/-! ### Global pass, announcer, scheduler, lifecycle -/

/-- Source `getLiveRegion()` + `announce(text)`: guarded on `a11yEnabled`
and nonempty text, lazily creating the live-region singleton and recording
the announced text (the clear-then-set timer discipline is collapsed into
one log append; timing is outside the model). -/
def announce (text : String) (s : St) : St :=
  if !s.a11yEnabled then s
  else if text == "" then s
  else
    let s := if s.liveRegionPresent then s else { s with liveRegionPresent := true }
    { s with announceLog := s.announceLog ++ [text] }

/-- Write `role` unless the element already carries one: the shared
`!x.hasAttribute('role')` pattern of `enhanceRegionsGlobal`. -/
def roleIfAbsent (s : St) (n : Nat) (r : String) : St :=
  if hasAttr s n "role" then s else setAttrTracked s n "role" r

/-- Source `enhanceRegionsGlobal()`: landmark roles for the
header/nav/main/footer candidates (tag or className/innerText heuristics,
all immutable, hence scene features) and `complementary` for sidebars. -/
def enhanceRegionsGlobal (s : St) : St :=
  if !s.a11yEnabled then s
  else
    let s := match s.headerCand with
      | some h => roleIfAbsent s h "banner"
      | none => s
    let s := match s.navCand with
      | some nv => roleIfAbsent s nv "navigation"
      | none => s
    let s := match s.mainRegionCand with
      | some m => roleIfAbsent s m "main"
      | none => s
    let s := match s.footerCand with
      | some f => roleIfAbsent s f "contentinfo"
      | none => s
    (s.nodes.filter (fun n => (s.dom n).sidebarCand)).foldl
      (fun t n => roleIfAbsent t n "complementary") s

/-- First per-tab loop of `enhanceTabsGlobal`: role/tabindex/id defaults
and hash-href panel wiring (`hrefHashTarget` resolves the
`document.querySelector(href)` of an `<a href="#...">` tab). -/
def tabFirstLoop (s : St) (tab : Nat) (i : Nat) : St :=
  let ht := (s.dom tab).hrefHashTarget
  let s := if hasAttr s tab "role" then s else setAttrTracked s tab "role" "tab"
  let s := if hasAttr s tab "tabindex" then s
    else setAttrTracked s tab "tabindex" (if i = 0 then "0" else "-1")
  let s := if hasAttr s tab "id" then s
    else setAttrTracked (bumpFresh s) tab "id" (freshName s "a11y-tab")
  match ht with
  | none => s
  | some tgt =>
      let s := if hasAttr s tgt "role" then s
        else setAttrTracked s tgt "role" "tabpanel"
      let s := if hasAttr s tgt "aria-labelledby" then s
        else setAttrTracked s tgt "aria-labelledby" ((getAttr s tab "id").getD "")
      let s := if hasAttr s tgt "id" then s
        else setAttrTracked (bumpFresh s) tgt "id" (freshName s "a11y-tabpanel")
      if hasAttr s tab "aria-controls" then s
      else setAttrTracked s tab "aria-controls" ((getAttr s tgt "id").getD "")

/-- Second per-tab loop of `enhanceTabsGlobal`: resolve the tab's panel
(`aria-controls` id lookup, else the positional `.tab-panel` fallback,
split out as `resolveTabPanel`) and wire role/labelledby/id/controls. -/
def resolveTabPanel (s : St) (tab : Nat) : Option Nat :=
  match getAttr s tab "aria-controls" with
  | some cid =>
      match findByIdAttr s cid with
      | some p => some p
      | none => (s.dom tab).panelFallback
  | none => (s.dom tab).panelFallback

def tabSecondLoop (s : St) (tab : Nat) : St :=
  match resolveTabPanel s tab with
  | none => s
  | some p =>
      let s := if hasAttr s p "role" then s
        else setAttrTracked s p "role" "tabpanel"
      let s := if hasAttr s p "aria-labelledby" then s
        else setAttrTracked s p "aria-labelledby" ((getAttr s tab "id").getD "")
      let s := if hasAttr s p "id" then s
        else setAttrTracked (bumpFresh s) p "id" (freshName s "a11y-tabpanel")
      if hasAttr s tab "aria-controls" then s
      else setAttrTracked s tab "aria-controls" ((getAttr s p "id").getD "")

/-- Per-tablist body of `enhanceTabsGlobal`: flag guard, `tablist` role,
both per-tab loops over the visible tab items, then click and keydown
listeners on every tab (the `activateTab` handler bodies run only on
events, not during the pass). -/
def tablistStep (s : St) (tl : Nat) : St :=
  if getAttr s tl (A11Y_FLAG ++ "-tablist") == some "1" then s
  else
    let s := setAttrTracked s tl (A11Y_FLAG ++ "-tablist") "1"
    let s := if hasAttr s tl "role" then s else setAttrTracked s tl "role" "tablist"
    let tabs := (s.dom tl).tabItems
    let s := tabs.enum.foldl (fun t p => tabFirstLoop t p.2 p.1) s
    let s := tabs.foldl tabSecondLoop s
    tabs.foldl (fun t tab => addListener (addListener t tab) tab) s

/-- Source `enhanceTabsGlobal()`. -/
def enhanceTabsGlobal (s : St) : St :=
  if !s.a11yEnabled then s
  else (s.nodes.filter (fun n => (s.dom n).tablistCand)).foldl tablistStep s

/-- Per-dialog body of `enhanceDialogsGlobal`: visibility and flag guards,
dialog role and `aria-modal`, heading labelling, the focus-trap keydown
listener, and initial focus (focusing itself is outside the model, but a
dialog without focusable children receives the `tabindex="-1"` write). -/
def dialogStep (s : St) (n : Nat) : St :=
  if !(isVisible s n) then s
  else if getAttr s n (A11Y_FLAG ++ "-dialog") == some "1" then s
  else
    let hd := (s.dom n).dialogHeading
    let s := setAttrTracked s n (A11Y_FLAG ++ "-dialog") "1"
    let s := if hasAttr s n "role" then s else setAttrTracked s n "role" "dialog"
    let s := if hasAttr s n "aria-modal" then s
      else setAttrTracked s n "aria-modal" "true"
    let s :=
      match hd with
      | none => s
      | some h =>
          let s := if hasAttr s h "id" then s
            else setAttrTracked (bumpFresh s) h "id" (freshName s "a11y-dialog-title")
          if hasAttr s n "aria-labelledby" then s
          else setAttrTracked s n "aria-labelledby" ((getAttr s h "id").getD "")
    let s := addListener s n
    if (s.dom n).dialogHasFocusable then s
    else setAttrTracked s n "tabindex" "-1"

/-- Source `enhanceDialogsGlobal()`. -/
def enhanceDialogsGlobal (s : St) : St :=
  if !s.a11yEnabled then s
  else (s.nodes.filter (fun n => (s.dom n).dialogCand)).foldl dialogStep s

/-- Source `enhanceStickyHeadersGlobal()`: the sticky/fixed duplicate
detection (computed position, visibility filter, innerText comparison with
the first header) is the immutable `stickyDupe` oracle; each duplicate is
hidden from assistive technology. -/
def enhanceStickyHeadersGlobal (s : St) : St :=
  if !s.a11yEnabled then s
  else (s.nodes.filter (fun n => (s.dom n).stickyDupe)).foldl
    (fun t n => setAttrTracked t n "aria-hidden" "true") s

/-- Source `normalizeTabIndexGlobal()`: every element carrying a parsed
positive `tabindex` is normalised to `0` (`String.toInt?` stands in for
`parseInt(x, 10)`; they agree on the plain integer values that occur). -/
def normalizeTabIndexGlobal (s : St) : St :=
  if !s.a11yEnabled then s
  else (s.nodes.filter (fun n => hasAttr s n "tabindex")).foldl
    (fun t n =>
      match (getAttr t n "tabindex").bind String.toInt? with
      | some v => if v > 0 then setAttrTracked t n "tabindex" "0" else t
      | none => t) s

/-- Source `enhanceInfiniteScrollGlobal(addedCount)`. -/
def enhanceInfiniteScrollGlobal (addedCount : Nat) (s : St) : St :=
  if !s.a11yEnabled then s
  else if addedCount > 0 then
    announce (toString addedCount ++ " more items loaded") s
  else s

/-- Source `runGlobalEnhancements(addedCount)`: the document-scope rules in
order, then the infinite-scroll announcement. -/
def runGlobalEnhancements (addedCount : Nat) (s : St) : St :=
  enhanceInfiniteScrollGlobal addedCount
    (normalizeTabIndexGlobal (enhanceStickyHeadersGlobal
      (enhanceDialogsGlobal (enhanceTabsGlobal (enhanceRegionsGlobal s)))))

/-- Source `scheduleEnhancements(count)`: accumulate the pending item
count; if no pass is in flight, set the coalescing flag and queue one
animation-frame callback. -/
def scheduleEnhancements (c : Nat) (s : St) : St :=
  let s1 := { s with pendingItemCount := s.pendingItemCount + c }
  if s1.enhancementScheduled then s1
  else { s1 with enhancementScheduled := true }

/-- The animation-frame callback queued by `scheduleEnhancements` (there is
one in flight exactly when `enhancementScheduled` is set): clear the flag,
run the global pass with the accumulated count, reset the count.  The ghost
`passLog` records each executed scheduled global pass and its argument. -/
def fireFrame (s : St) : St :=
  if s.enhancementScheduled then
    let s1 := { s with enhancementScheduled := false }
    let s2 := { s1 with passLog := s1.passLog ++ [s1.pendingItemCount] }
    let s3 := runGlobalEnhancements s2.pendingItemCount s2
    { s3 with pendingItemCount := 0 }
  else s

/-- Source `addGlobalStyles()`: inject the stylesheet singleton unless
present (or disabled). -/
def addGlobalStyles (s : St) : St :=
  if s.globalStylePresent || !s.a11yEnabled then s
  else { s with globalStylePresent := true, styleNodeCount := s.styleNodeCount + 1 }

/-- Source `removeGlobalStyles()`. -/
def removeGlobalStyles (s : St) : St :=
  { s with globalStylePresent := false
         , styleNodeCount := s.styleNodeCount - (if s.globalStylePresent then 1 else 0) }

/-- Source `addSkipLink()`: guarded on enablement and the attached
singleton; gives the main candidate (the `<main>` element or `<body>`) an
id via a tracked write when it has none, then inserts the link. -/
def addSkipLink (s : St) : St :=
  if !s.a11yEnabled then s
  else if s.skipLinkPresent then s
  else
    let s := if hasAttr s s.mainCand "id" then s
      else setAttrTracked s s.mainCand "id" "a11y-main"
    { s with skipLinkPresent := true, skipLinkNodeCount := s.skipLinkNodeCount + 1 }

/-- Source `removeSkipLink()`: remove the node if attached, drop the
reference unconditionally. -/
def removeSkipLink (s : St) : St :=
  { s with skipLinkPresent := false
         , skipLinkNodeCount := s.skipLinkNodeCount - (if s.skipLinkPresent then 1 else 0) }

/-- Source `removeLiveRegion()`. -/
def removeLiveRegion (s : St) : St :=
  { s with liveRegionPresent := false }

/-- Source `startMutationObserver()`: attach the subtree observer unless
one is already attached. -/
def startMutationObserver (s : St) : St :=
  if s.observerAttached then s
  else { s with observerAttached := true
              , observerAttachCount := s.observerAttachCount + 1 }

/-- Source `stopMutationObserver()`. -/
def stopMutationObserver (s : St) : St :=
  if s.observerAttached then { s with observerAttached := false } else s

/-- Source `enableA11Y()`. -/
def enableA11Y (s : St) : St :=
  let s := addGlobalStyles s
  let s := addSkipLink s
  let s := runLocalEnhancements s
  let s := runGlobalEnhancements 0 s
  startMutationObserver s

/-- Source `disableA11Y()`. -/
def disableA11Y (s : St) : St :=
  let s := stopMutationObserver s
  let s := removeSkipLink s
  let s := removeLiveRegion s
  let s := removeGlobalStyles s
  let s := clearAllTrackedChanges s
  { s with pendingItemCount := 0, mutationCounter := 0 }

/-- The disable transition as the toggle-button handler performs it: clear
`a11yEnabled`, then call `disableA11Y()`. -/
def toggleOff (s : St) : St :=
  disableA11Y { s with a11yEnabled := false }

/-! ### Concrete states used to evaluate the model -/

/-- An inert element: no attributes, no inline styles, connected, not
matching any rule selector. -/
def defElem : Elem :=
  { attrs := fun _ => none, styles := fun _ => "", connected := true
  , listeners := 0, baseVisible := false, innerTextEmpty := true
  , btnTagOrClass := false, btnLabel := "Button", linkCand := false
  , linkLabel := "Link", isLabelEl := false, labelStar := false
  , labelTarget := none, isInput := false, assocLabel := false
  , errSibling := none, errWords := false, divSpanCand := false
  , onclickProp := false, btnClassMatch := false, dropCand := false
  , nextSibling := none, notifCand := false, sliderCand := false
  , sliderMin := 0, sliderMax := 100, sliderVal := 0, sidebarCand := false
  , tablistCand := false, tabItems := [], hrefHashTarget := none
  , panelFallback := none, dialogCand := false, dialogHeading := none
  , dialogHasFocusable := true, stickyDupe := false }

/-- A base engine state: disabled, idle scheduler, empty ledger, empty
document. -/
def baseSt : St :=
  { a11yEnabled := false, observerAttached := false
  , enhancementScheduled := false, skipLinkPresent := false
  , liveRegionPresent := false, globalStylePresent := false
  , mutationCounter := 0, pendingItemCount := 0, freshCounter := 0
  , nodes := [], mainCand := 0, headerCand := none, navCand := none
  , mainRegionCand := none, footerCand := none, dom := fun _ => defElem
  , changeLog := [], styleNodeCount := 0, skipLinkNodeCount := 0
  , observerAttachCount := 0, announceLog := [], passLog := [] }

/-- A visible `<div class="clickable">` with empty text and no attributes:
matched by `enhanceClickableRoles` via `.clickable` but, before any pass,
not by the `enhanceUnlabeledButtons` selector. -/
def clickDiv : Elem :=
  { defElem with baseVisible := true, divSpanCand := true, btnClassMatch := true }

/-- A one-element document containing only `clickDiv`, engine enabled. -/
def exScene : St :=
  { baseSt with a11yEnabled := true, nodes := [0], dom := fun _ => clickDiv }

/-- An element carrying a pre-existing `role` attribute and a pre-existing
inline `color` style (used to exercise capture and rollback). -/
def attrElem : Elem :=
  { defElem with
      attrs := fun a => if a = "role" then some "original" else none
    , styles := fun p => if p = "color" then "red" else "" }

/-- A document with one attribute-bearing element, empty ledger. -/
def exLedgerSt : St :=
  { baseSt with nodes := [0], dom := fun _ => attrElem }

/-- A tracked-write sequence touching attributes and styles of node 0
repeatedly and node 1 once. -/
def exOps : List WOp :=
  [ .setA 0 "role" "button", .setA 0 "role" "tab", .remA 0 "role"
  , .setA 0 "aria-label" "x", .setS 0 "color" "blue", .setS 0 "color" "green"
  , .setS 1 "display" "none", .remA 1 "hidden" ]

/-- A state with a tracked, then detached, element: node 0 receives a
tracked write and is then removed from the live tree. -/
def exGcSt : St :=
  removeFromTree (setAttrTracked exLedgerSt 0 "role" "button") 0

/-- An already fully-enabled engine state (singletons present, observer
attached). -/
def exEnabledFull : St :=
  { baseSt with
      a11yEnabled := true, observerAttached := true, skipLinkPresent := true
      globalStylePresent := true, liveRegionPresent := true }

/-- An enabled engine state with an idle scheduler. -/
def exEnabledOn : St :=
  { baseSt with a11yEnabled := true }

/-- Ledger invariant relating a state reached by tracked writes to the
state `s0` the writes started from: ledger node keys are unique, each
entry's captured keys are unique, every captured value is the value `s0`
gave that key, and replaying an element's entry over its current state
recovers its `s0` state (pointwise, for attributes and styles). -/
structure Inv (s0 s : St) : Prop where
  log_nodup : (s.changeLog.map Prod.fst).Nodup
  attr_nodup : ∀ n, ((entryFor s n).attrs.map Prod.fst).Nodup
  style_nodup : ∀ n, ((entryFor s n).styles.map Prod.fst).Nodup
  attr_orig : ∀ n p, p ∈ (entryFor s n).attrs → p.2 = (s0.dom n).attrs p.1
  style_orig : ∀ n p, p ∈ (entryFor s n).styles → p.2 = (s0.dom n).styles p.1
  attr_restore : ∀ n a, restoreL (entryFor s n).attrs (s.dom n).attrs a = (s0.dom n).attrs a
  style_restore : ∀ n p, restoreL (entryFor s n).styles (s.dom n).styles p = (s0.dom n).styles p

/-- The scheduler-observable and singleton-count fields: no enhancement
rule touches any of them, which is what makes coalescing and the
no-duplicate-singleton properties compositional. -/
def frame (s : St) : Nat × Bool × List Nat × Nat × Nat × Nat × Bool × Bool :=
  (s.pendingItemCount, s.enhancementScheduled, s.passLog, s.styleNodeCount,
   s.skipLinkNodeCount, s.observerAttachCount, s.a11yEnabled, s.observerAttached)

/-! ### Lemmas: association lists, restore replay, document updates -/

theorem alookup_eq_none_iff {α β : Type} [DecidableEq α] (a : α)
    (l : List (α × β)) : alookup a l = none ↔ a ∉ l.map Prod.fst := by
  induction l with
  | nil => simp [alookup]
  | cons p l ih =>
      by_cases h : p.1 = a
      · simp [alookup, h]
      · simp [alookup, h, ih, Ne.symm h]

theorem alookup_append_none {α β : Type} [DecidableEq α] {a : α}
    {l : List (α × β)} (r : List (α × β)) (h : alookup a l = none) :
    alookup a (l ++ r) = alookup a r := by
  induction l with
  | nil => simp
  | cons p l ih =>
      by_cases hp : p.1 = a
      · simp [alookup, hp] at h
      · simp only [alookup, hp, if_false] at h
        simpa [alookup, hp] using ih h

theorem alookup_single_self {α β : Type} [DecidableEq α] (a : α) (b : β) :
    alookup a [(a, b)] = some b := by
  simp [alookup]

theorem restoreL_concat {β : Type} (l : List (String × β)) (q : String × β)
    (f : String → β) (x : String) :
    restoreL (l ++ [q]) f x = if x = q.1 then q.2 else restoreL l f x := by
  induction l generalizing f with
  | nil => rfl
  | cons p l ih => rw [List.cons_append, restoreL, List.foldl_cons, restoreL, List.foldl_cons]; exact ih _

theorem restoreL_not_mem {β : Type} {a : String} {l : List (String × β)}
    (h : a ∉ l.map Prod.fst) (f : String → β) : restoreL l f a = f a := by
  induction l generalizing f with
  | nil => rfl
  | cons p l ih =>
      simp only [List.map_cons, List.mem_cons, not_or] at h
      rw [restoreL, List.foldl_cons]
      have := ih h.2 (upd f p.1 p.2)
      rw [restoreL] at this
      rw [this, upd, if_neg h.1]

theorem restoreL_mem_indep {β : Type} {x : String} {l : List (String × β)}
    (h : x ∈ l.map Prod.fst) (f g : String → β) :
    restoreL l f x = restoreL l g x := by
  induction l generalizing f g with
  | nil => simp at h
  | cons p l ih =>
      show restoreL l (upd f p.1 p.2) x = restoreL l (upd g p.1 p.2) x
      by_cases hx : x ∈ l.map Prod.fst
      · exact ih hx _ _
      · have hxp : x = p.1 := by
          simp only [List.map_cons, List.mem_cons] at h
          tauto
        rw [restoreL_not_mem hx, restoreL_not_mem hx, upd, upd,
          if_pos hxp, if_pos hxp]

theorem updDom_same (d : Nat → Elem) (n : Nat) (e : Elem) :
    updDom d n e n = e := by
  simp [updDom]

theorem updDom_ne {m n : Nat} (d : Nat → Elem) (e : Elem) (h : m ≠ n) :
    updDom d n e m = d m := by
  simp [updDom, h]

theorem updateEntry_keys (log : List (Nat × Entry)) (n : Nat)
    (f : Entry → Entry) :
    (updateEntry log n f).map Prod.fst = log.map Prod.fst := by
  induction log with
  | nil => rfl
  | cons p l ih =>
      by_cases h : p.1 = n <;> simp [updateEntry, h] <;>
        simpa [updateEntry] using ih

theorem alookup_updateEntry_self (log : List (Nat × Entry)) (n : Nat)
    (f : Entry → Entry) :
    alookup n (updateEntry log n f) = (alookup n log).map f := by
  induction log with
  | nil => rfl
  | cons p l ih =>
      by_cases h : p.1 = n
      · simp [updateEntry, alookup, h]
      · simpa [updateEntry, alookup, h] using ih

theorem alookup_updateEntry_ne {m n : Nat} (log : List (Nat × Entry))
    (f : Entry → Entry) (h : m ≠ n) :
    alookup m (updateEntry log n f) = alookup m log := by
  induction log with
  | nil => rfl
  | cons p l ih =>
      show alookup m ((if p.1 = n then (p.1, f p.2) else p) :: updateEntry l n f) = _
      by_cases hp : p.1 = n
      · have hpm : ¬ p.1 = m := by rw [hp]; exact Ne.symm h
        rw [if_pos hp, alookup, alookup, if_neg hpm, if_neg hpm]
        exact ih
      · rw [if_neg hp, alookup, alookup]
        by_cases hm : p.1 = m
        · rw [if_pos hm, if_pos hm]
        · rw [if_neg hm, if_neg hm]; exact ih

theorem ensureEntry_dom (s : St) (n : Nat) : (ensureEntry s n).dom = s.dom := by
  unfold ensureEntry; split <;> rfl

theorem ensureEntry_fields (s : St) (n : Nat) :
    (ensureEntry s n).nodes = s.nodes ∧ (ensureEntry s n).a11yEnabled = s.a11yEnabled := by
  unfold ensureEntry; split <;> exact ⟨rfl, rfl⟩

theorem ensureEntry_lookup (s : St) (n : Nat) :
    alookup n (ensureEntry s n).changeLog = some (entryFor s n) := by
  unfold ensureEntry
  rcases h : alookup n s.changeLog with _ | e
  · rw [if_neg (by simp [h])]
    show alookup n (s.changeLog ++ [(n, ⟨[], []⟩)]) = _
    rw [alookup_append_none _ h, alookup_single_self, entryFor, h]
    rfl
  · rw [if_pos (by simp [h])]
    rw [entryFor, h]
    exact h ▸ rfl

theorem alookup_append_single_ne {α β : Type} [DecidableEq α] {m n : α}
    (l : List (α × β)) (b : β) (h : m ≠ n) :
    alookup m (l ++ [(n, b)]) = alookup m l := by
  induction l with
  | nil => simp [alookup, Ne.symm h]
  | cons p l ih =>
      rw [List.cons_append, alookup, alookup]
      by_cases hp : p.1 = m
      · rw [if_pos hp, if_pos hp]
      · rw [if_neg hp, if_neg hp]; exact ih

theorem ensureEntry_lookup_ne {m n : Nat} (s : St) (h : m ≠ n) :
    alookup m (ensureEntry s n).changeLog = alookup m s.changeLog := by
  unfold ensureEntry
  split
  · rfl
  · exact alookup_append_single_ne _ _ h

theorem ensureEntry_keys_nodup (s : St) (n : Nat)
    (h : (s.changeLog.map Prod.fst).Nodup) :
    ((ensureEntry s n).changeLog.map Prod.fst).Nodup := by
  unfold ensureEntry
  split
  · exact h
  · next hn =>
      have : n ∉ s.changeLog.map Prod.fst := by
        rw [← alookup_eq_none_iff]
        exact Option.not_isSome_iff_eq_none.mp hn
      show ((s.changeLog ++ [(n, (⟨[], []⟩ : Entry))]).map Prod.fst).Nodup
      rw [List.map_append]
      simp [List.nodup_append, h, this]

theorem entryFor_ensure (s : St) (n m : Nat) :
    entryFor (ensureEntry s n) m = entryFor s m := by
  by_cases h : m = n
  · subst h
    rw [entryFor, ensureEntry_lookup]
    rfl
  · rw [entryFor, ensureEntry_lookup_ne s h, entryFor]

theorem trackAttrCapture_dom (s : St) (n : Nat) (a : String) :
    (trackAttrCapture s n a).dom = s.dom := by
  unfold trackAttrCapture
  exact ensureEntry_dom s n

theorem trackStyleCapture_dom (s : St) (n : Nat) (p : String) :
    (trackStyleCapture s n p).dom = s.dom := by
  unfold trackStyleCapture
  exact ensureEntry_dom s n

theorem trackAttrCapture_log (s : St) (n : Nat) (a : String) :
    (trackAttrCapture s n a).changeLog
      = updateEntry (ensureEntry s n).changeLog n
          (captureAttrFn (((ensureEntry s n).dom n).attrs a) a) := rfl

theorem trackStyleCapture_log (s : St) (n : Nat) (p : String) :
    (trackStyleCapture s n p).changeLog
      = updateEntry (ensureEntry s n).changeLog n
          (captureStyleFn (((ensureEntry s n).dom n).styles p) p) := rfl

theorem entryFor_eq (s : St) (n : Nat) :
    entryFor s n = (alookup n s.changeLog).getD ⟨[], []⟩ := rfl

theorem entryFor_trackAttrCapture_self (s : St) (n : Nat) (a : String) :
    entryFor (trackAttrCapture s n a) n
      = captureAttrFn ((s.dom n).attrs a) a (entryFor s n) := by
  rw [entryFor_eq, trackAttrCapture_log, alookup_updateEntry_self,
    ensureEntry_lookup, Option.map_some', Option.getD_some, ensureEntry_dom]

theorem entryFor_trackAttrCapture_ne {m n : Nat} (s : St) (a : String)
    (h : m ≠ n) : entryFor (trackAttrCapture s n a) m = entryFor s m := by
  rw [entryFor_eq, trackAttrCapture_log, alookup_updateEntry_ne _ _ h,
    ensureEntry_lookup_ne s h, ← entryFor_eq]

theorem entryFor_trackStyleCapture_self (s : St) (n : Nat) (p : String) :
    entryFor (trackStyleCapture s n p) n
      = captureStyleFn ((s.dom n).styles p) p (entryFor s n) := by
  rw [entryFor_eq, trackStyleCapture_log, alookup_updateEntry_self,
    ensureEntry_lookup, Option.map_some', Option.getD_some, ensureEntry_dom]

theorem entryFor_trackStyleCapture_ne {m n : Nat} (s : St) (p : String)
    (h : m ≠ n) : entryFor (trackStyleCapture s n p) m = entryFor s m := by
  rw [entryFor_eq, trackStyleCapture_log, alookup_updateEntry_ne _ _ h,
    ensureEntry_lookup_ne s h, ← entryFor_eq]

theorem trackAttrCapture_log_nodup (s : St) (n : Nat) (a : String)
    (h : (s.changeLog.map Prod.fst).Nodup) :
    ((trackAttrCapture s n a).changeLog.map Prod.fst).Nodup := by
  rw [trackAttrCapture_log, updateEntry_keys]
  exact ensureEntry_keys_nodup s n h

theorem trackStyleCapture_log_nodup (s : St) (n : Nat) (p : String)
    (h : (s.changeLog.map Prod.fst).Nodup) :
    ((trackStyleCapture s n p).changeLog.map Prod.fst).Nodup := by
  rw [trackStyleCapture_log, updateEntry_keys]
  exact ensureEntry_keys_nodup s n h

theorem putDomAttr_dom_ne {m n : Nat} (s : St) (a : String) (w : Option String)
    (h : m ≠ n) : (putDomAttr s n a w).dom m = s.dom m := by
  have h1 : (putDomAttr s n a w).dom
      = updDom s.dom n { s.dom n with attrs := upd (s.dom n).attrs a w } := rfl
  rw [h1, updDom_ne _ _ h]

theorem putDomAttr_dom_self (s : St) (n : Nat) (a : String) (w : Option String) :
    (putDomAttr s n a w).dom n
      = { s.dom n with attrs := upd (s.dom n).attrs a w } := by
  have h1 : (putDomAttr s n a w).dom
      = updDom s.dom n { s.dom n with attrs := upd (s.dom n).attrs a w } := rfl
  rw [h1, updDom_same]

theorem putDomStyle_dom_ne {m n : Nat} (s : St) (p v : String)
    (h : m ≠ n) : (putDomStyle s n p v).dom m = s.dom m := by
  have h1 : (putDomStyle s n p v).dom
      = updDom s.dom n { s.dom n with styles := upd (s.dom n).styles p v } := rfl
  rw [h1, updDom_ne _ _ h]

theorem putDomStyle_dom_self (s : St) (n : Nat) (p v : String) :
    (putDomStyle s n p v).dom n
      = { s.dom n with styles := upd (s.dom n).styles p v } := by
  have h1 : (putDomStyle s n p v).dom
      = updDom s.dom n { s.dom n with styles := upd (s.dom n).styles p v } := rfl
  rw [h1, updDom_same]

/-- Replaying a captured list over a map whose values changed only at a
key the list does not mention still recovers the original map wherever the
unchanged replay did. -/
theorem restoreL_upd_off {β : Type} {l : List (String × β)} {a : String}
    (f : String → β) (w : β) {x : String}
    (hxa : x ≠ a) : restoreL l (upd f a w) x = restoreL l f x := by
  by_cases hx : x ∈ l.map Prod.fst
  · exact restoreL_mem_indep hx _ _
  · rw [restoreL_not_mem hx, restoreL_not_mem hx, upd, if_neg hxa]

/-- Replaying a captured list over a map whose values changed only at a
captured key recovers the original map. -/
theorem restoreL_upd_captured {β : Type} {l : List (String × β)} {a : String}
    (hmem : a ∈ l.map Prod.fst) (f : String → β) (w : β) (x : String) :
    restoreL l (upd f a w) x = restoreL l f x := by
  by_cases hx : x ∈ l.map Prod.fst
  · exact restoreL_mem_indep hx _ _
  · have hxa : x ≠ a := fun hh => hx (hh ▸ hmem)
    rw [restoreL_not_mem hx, restoreL_not_mem hx, upd, if_neg hxa]

/-- Tracked attribute writes preserve the ledger invariant: this is the
heart of the single-capture and rollback-exactness arguments. -/
theorem Inv_attrWrite {s0 s : St} (h : Inv s0 s) (n : Nat) (a : String)
    (w : Option String) : Inv s0 (putDomAttr (trackAttrCapture s n a) n a w) := by
  have hentR : ∀ m, entryFor (putDomAttr (trackAttrCapture s n a) n a w) m
      = entryFor (trackAttrCapture s n a) m := fun _ => rfl
  have hdom_ne : ∀ m, m ≠ n →
      (putDomAttr (trackAttrCapture s n a) n a w).dom m = s.dom m := by
    intro m hm
    rw [putDomAttr_dom_ne _ _ _ hm, trackAttrCapture_dom]
  have hdom_attrs : ((putDomAttr (trackAttrCapture s n a) n a w).dom n).attrs
      = upd ((s.dom n).attrs) a w := by
    rw [putDomAttr_dom_self, trackAttrCapture_dom]
  have hdom_styles : ((putDomAttr (trackAttrCapture s n a) n a w).dom n).styles
      = (s.dom n).styles := by
    rw [putDomAttr_dom_self, trackAttrCapture_dom]
  constructor
  · exact trackAttrCapture_log_nodup s n a h.log_nodup
  · intro m
    rw [hentR]
    by_cases hm : m = n
    · subst hm
      rw [entryFor_trackAttrCapture_self, captureAttrFn]
      split
      · exact h.attr_nodup m
      · next hcap =>
          have hnin : a ∉ (entryFor s m).attrs.map Prod.fst := by
            rw [← alookup_eq_none_iff]
            exact Option.not_isSome_iff_eq_none.mp hcap
          show (((entryFor s m).attrs ++ [(a, (s.dom m).attrs a)]).map Prod.fst).Nodup
          rw [List.map_append]
          simp [List.nodup_append, h.attr_nodup m, hnin]
    · rw [entryFor_trackAttrCapture_ne s a hm]
      exact h.attr_nodup m
  · intro m
    rw [hentR]
    by_cases hm : m = n
    · subst hm
      rw [entryFor_trackAttrCapture_self, captureAttrFn]
      split
      · exact h.style_nodup m
      · exact h.style_nodup m
    · rw [entryFor_trackAttrCapture_ne s a hm]
      exact h.style_nodup m
  · intro m p hp
    rw [hentR] at hp
    by_cases hm : m = n
    · subst hm
      rw [entryFor_trackAttrCapture_self, captureAttrFn] at hp
      revert hp
      split
      · exact h.attr_orig m p
      · next hcap =>
          intro hp
          rcases List.mem_append.mp hp with hp | hp
          · exact h.attr_orig m p hp
          · have hpa : p = (a, (s.dom m).attrs a) := List.mem_singleton.mp hp
            have hnin : a ∉ (entryFor s m).attrs.map Prod.fst := by
              rw [← alookup_eq_none_iff]
              exact Option.not_isSome_iff_eq_none.mp hcap
            have hr := h.attr_restore m a
            rw [restoreL_not_mem hnin] at hr
            rw [hpa]
            exact hr
    · rw [entryFor_trackAttrCapture_ne s a hm] at hp
      exact h.attr_orig m p hp
  · intro m p hp
    rw [hentR] at hp
    by_cases hm : m = n
    · subst hm
      rw [entryFor_trackAttrCapture_self, captureAttrFn] at hp
      revert hp
      split
      · exact h.style_orig m p
      · exact h.style_orig m p
    · rw [entryFor_trackAttrCapture_ne s a hm] at hp
      exact h.style_orig m p hp
  · intro m x
    rw [hentR]
    by_cases hm : m = n
    · subst hm
      rw [entryFor_trackAttrCapture_self, captureAttrFn, hdom_attrs]
      split
      · next hcap =>
          have hmem : a ∈ (entryFor s m).attrs.map Prod.fst := by
            by_contra hc
            rw [← alookup_eq_none_iff] at hc
            rw [hc] at hcap
            simp at hcap
          rw [restoreL_upd_captured hmem]
          exact h.attr_restore m x
      · next hcap =>
          have hnin : a ∉ (entryFor s m).attrs.map Prod.fst := by
            rw [← alookup_eq_none_iff]
            exact Option.not_isSome_iff_eq_none.mp hcap
          show restoreL ((entryFor s m).attrs ++ [(a, (s.dom m).attrs a)]) _ x = _
          rw [restoreL_concat]
          by_cases hxa : x = a
          · rw [if_pos hxa, hxa, ← restoreL_not_mem hnin ((s.dom m).attrs)]
            exact h.attr_restore m a
          · rw [if_neg hxa, restoreL_upd_off _ _ hxa]
            exact h.attr_restore m x
    · rw [entryFor_trackAttrCapture_ne s a hm, hdom_ne m hm]
      exact h.attr_restore m x
  · intro m x
    rw [hentR]
    by_cases hm : m = n
    · subst hm
      rw [entryFor_trackAttrCapture_self, captureAttrFn, hdom_styles]
      split
      · exact h.style_restore m x
      · exact h.style_restore m x
    · rw [entryFor_trackAttrCapture_ne s a hm, hdom_ne m hm]
      exact h.style_restore m x

/-- Tracked style writes preserve the ledger invariant (mirror image of
`Inv_attrWrite` on the style key space). -/
theorem Inv_styleWrite {s0 s : St} (h : Inv s0 s) (n : Nat) (p v : String) :
    Inv s0 (putDomStyle (trackStyleCapture s n p) n p v) := by
  have hentR : ∀ m, entryFor (putDomStyle (trackStyleCapture s n p) n p v) m
      = entryFor (trackStyleCapture s n p) m := fun _ => rfl
  have hdom_ne : ∀ m, m ≠ n →
      (putDomStyle (trackStyleCapture s n p) n p v).dom m = s.dom m := by
    intro m hm
    rw [putDomStyle_dom_ne _ _ _ hm, trackStyleCapture_dom]
  have hdom_styles : ((putDomStyle (trackStyleCapture s n p) n p v).dom n).styles
      = upd ((s.dom n).styles) p v := by
    rw [putDomStyle_dom_self, trackStyleCapture_dom]
  have hdom_attrs : ((putDomStyle (trackStyleCapture s n p) n p v).dom n).attrs
      = (s.dom n).attrs := by
    rw [putDomStyle_dom_self, trackStyleCapture_dom]
  constructor
  · exact trackStyleCapture_log_nodup s n p h.log_nodup
  · intro m
    rw [hentR]
    by_cases hm : m = n
    · subst hm
      rw [entryFor_trackStyleCapture_self, captureStyleFn]
      split
      · exact h.attr_nodup m
      · exact h.attr_nodup m
    · rw [entryFor_trackStyleCapture_ne s p hm]
      exact h.attr_nodup m
  · intro m
    rw [hentR]
    by_cases hm : m = n
    · subst hm
      rw [entryFor_trackStyleCapture_self, captureStyleFn]
      split
      · exact h.style_nodup m
      · next hcap =>
          have hnin : p ∉ (entryFor s m).styles.map Prod.fst := by
            rw [← alookup_eq_none_iff]
            exact Option.not_isSome_iff_eq_none.mp hcap
          show (((entryFor s m).styles ++ [(p, (s.dom m).styles p)]).map Prod.fst).Nodup
          rw [List.map_append]
          simp [List.nodup_append, h.style_nodup m, hnin]
    · rw [entryFor_trackStyleCapture_ne s p hm]
      exact h.style_nodup m
  · intro m q hq
    rw [hentR] at hq
    by_cases hm : m = n
    · subst hm
      rw [entryFor_trackStyleCapture_self, captureStyleFn] at hq
      revert hq
      split
      · exact h.attr_orig m q
      · exact h.attr_orig m q
    · rw [entryFor_trackStyleCapture_ne s p hm] at hq
      exact h.attr_orig m q hq
  · intro m q hq
    rw [hentR] at hq
    by_cases hm : m = n
    · subst hm
      rw [entryFor_trackStyleCapture_self, captureStyleFn] at hq
      revert hq
      split
      · exact h.style_orig m q
      · next hcap =>
          intro hq
          rcases List.mem_append.mp hq with hq | hq
          · exact h.style_orig m q hq
          · have hqp : q = (p, (s.dom m).styles p) := List.mem_singleton.mp hq
            have hnin : p ∉ (entryFor s m).styles.map Prod.fst := by
              rw [← alookup_eq_none_iff]
              exact Option.not_isSome_iff_eq_none.mp hcap
            have hr := h.style_restore m p
            rw [restoreL_not_mem hnin] at hr
            rw [hqp]
            exact hr
    · rw [entryFor_trackStyleCapture_ne s p hm] at hq
      exact h.style_orig m q hq
  · intro m x
    rw [hentR]
    by_cases hm : m = n
    · subst hm
      rw [entryFor_trackStyleCapture_self, captureStyleFn, hdom_attrs]
      split
      · exact h.attr_restore m x
      · exact h.attr_restore m x
    · rw [entryFor_trackStyleCapture_ne s p hm, hdom_ne m hm]
      exact h.attr_restore m x
  · intro m x
    rw [hentR]
    by_cases hm : m = n
    · subst hm
      rw [entryFor_trackStyleCapture_self, captureStyleFn, hdom_styles]
      split
      · next hcap =>
          have hmem : p ∈ (entryFor s m).styles.map Prod.fst := by
            by_contra hc
            rw [← alookup_eq_none_iff] at hc
            rw [hc] at hcap
            simp at hcap
          rw [restoreL_upd_captured hmem]
          exact h.style_restore m x
      · next hcap =>
          have hnin : p ∉ (entryFor s m).styles.map Prod.fst := by
            rw [← alookup_eq_none_iff]
            exact Option.not_isSome_iff_eq_none.mp hcap
          show restoreL ((entryFor s m).styles ++ [(p, (s.dom m).styles p)]) _ x = _
          rw [restoreL_concat]
          by_cases hxp : x = p
          · rw [if_pos hxp, hxp, ← restoreL_not_mem hnin ((s.dom m).styles)]
            exact h.style_restore m p
          · rw [if_neg hxp, restoreL_upd_off _ _ hxp]
            exact h.style_restore m x
    · rw [entryFor_trackStyleCapture_ne s p hm, hdom_ne m hm]
      exact h.style_restore m x

/-- Every operation of the Tracked-Write API preserves the ledger
invariant. -/
theorem Inv_applyWOp {s0 s : St} (h : Inv s0 s) (op : WOp) :
    Inv s0 (applyWOp s op) := by
  cases op with
  | setA n a v => exact Inv_attrWrite h n a (some v)
  | remA n a => exact Inv_attrWrite h n a none
  | setS n p v => exact Inv_styleWrite h n p v

/-- A state with an empty ledger satisfies the invariant against itself. -/
theorem Inv_init {s0 : St} (h : s0.changeLog = []) : Inv s0 s0 := by
  have hE : ∀ n, entryFor s0 n = ⟨[], []⟩ := by
    intro n
    rw [entryFor_eq, h]
    rfl
  constructor
  · rw [h]; exact List.nodup_nil
  · intro n; rw [hE]; exact List.nodup_nil
  · intro n; rw [hE]; exact List.nodup_nil
  · intro n q hq; rw [hE] at hq; simp at hq
  · intro n q hq; rw [hE] at hq; simp at hq
  · intro n a; rw [hE]; rfl
  · intro n p; rw [hE]; rfl

/-- Any sequence of tracked writes starting from an empty ledger satisfies
the ledger invariant. -/
theorem Inv_applyWOps {s0 : St} (h : s0.changeLog = []) (ops : List WOp) :
    Inv s0 (applyWOps s0 ops) := by
  have hstep : ∀ (l : List WOp) (s : St), Inv s0 s → Inv s0 (applyWOps s l) := by
    intro l
    induction l with
    | nil => intro s hs; exact hs
    | cons op l ih =>
        intro s hs
        exact ih _ (Inv_applyWOp hs op)
  exact hstep ops s0 (Inv_init h)

/-- The rollback loop leaves untracked elements untouched. -/
theorem rollbackFold_not_mem {n : Nat} {log : List (Nat × Entry)}
    (h : n ∉ log.map Prod.fst) (d : Nat → Elem) : rollbackFold log d n = d n := by
  induction log generalizing d with
  | nil => rfl
  | cons p l ih =>
      simp only [List.map_cons, List.mem_cons, not_or] at h
      show rollbackFold l (updDom d p.1 (restoreElem p.2 (d p.1))) n = d n
      rw [ih h.2, updDom_ne _ _ h.1]

/-- With unique ledger keys, the rollback loop restores each tracked
element exactly from its entry. -/
theorem rollbackFold_mem {n : Nat} {log : List (Nat × Entry)} {e : Entry}
    (hnd : (log.map Prod.fst).Nodup) (h : alookup n log = some e)
    (d : Nat → Elem) : rollbackFold log d n = restoreElem e (d n) := by
  induction log generalizing d with
  | nil => simp [alookup] at h
  | cons p l ih =>
      show rollbackFold l (updDom d p.1 (restoreElem p.2 (d p.1))) n = _
      rw [List.map_cons, List.nodup_cons] at hnd
      by_cases hp : p.1 = n
      · subst hp
        rw [alookup, if_pos rfl] at h
        have he : p.2 = e := by injection h
        rw [rollbackFold_not_mem hnd.1, updDom_same, he]
      · rw [alookup, if_neg hp] at h
        have hne : n ≠ p.1 := fun hh => hp hh.symm
        rw [ih hnd.2 h]
        rw [updDom_ne _ _ hne]

/-- The rollback loop never changes connectivity. -/
theorem rollbackFold_connected (log : List (Nat × Entry)) (d : Nat → Elem)
    (m : Nat) : (rollbackFold log d m).connected = (d m).connected := by
  induction log generalizing d with
  | nil => rfl
  | cons p l ih =>
      show (rollbackFold l (updDom d p.1 (restoreElem p.2 (d p.1))) m).connected = _
      rw [ih]
      by_cases hp : m = p.1
      · subst hp
        rw [updDom_same]
        rfl
      · rw [updDom_ne _ _ hp]

/-- Rollback after tracked writes recovers the pre-write document exactly
(attributes and styles, every element, every key). -/
theorem clearAll_restores {s0 s : St} (hinv : Inv s0 s) :
    (∀ n a, ((clearAllTrackedChanges s).dom n).attrs a = (s0.dom n).attrs a) ∧
    (∀ n p, ((clearAllTrackedChanges s).dom n).styles p = (s0.dom n).styles p) := by
  have hdom : (clearAllTrackedChanges s).dom = rollbackFold s.changeLog s.dom := rfl
  constructor
  · intro n a
    rw [hdom]
    rcases hl : alookup n s.changeLog with _ | e
    · rw [rollbackFold_not_mem ((alookup_eq_none_iff _ _).mp hl)]
      have hr := hinv.attr_restore n a
      rw [entryFor_eq, hl] at hr
      exact hr
    · rw [rollbackFold_mem hinv.log_nodup hl]
      have hr := hinv.attr_restore n a
      rw [entryFor_eq, hl] at hr
      exact hr
  · intro n p
    rw [hdom]
    rcases hl : alookup n s.changeLog with _ | e
    · rw [rollbackFold_not_mem ((alookup_eq_none_iff _ _).mp hl)]
      have hr := hinv.style_restore n p
      rw [entryFor_eq, hl] at hr
      exact hr
    · rw [rollbackFold_mem hinv.log_nodup hl]
      have hr := hinv.style_restore n p
      rw [entryFor_eq, hl] at hr
      exact hr

/-- Filtering the ledger on a key predicate removes all entries of keys
failing the predicate. -/
theorem alookup_filter_fst_none (pn : Nat → Bool) {n : Nat}
    (l : List (Nat × Entry)) (h : pn n = false) :
    alookup n (l.filter (fun q => pn q.1)) = none := by
  induction l with
  | nil => rfl
  | cons p l ih =>
      rw [List.filter_cons]
      by_cases hp : pn p.1
      · rw [if_pos (by simpa using hp), alookup]
        have hpn : ¬ p.1 = n := fun hh => by
          rw [hh] at hp
          rw [h] at hp
          exact Bool.noConfusion hp
        rw [if_neg hpn]
        exact ih
      · rw [if_neg (by simpa using hp)]
        exact ih

/-- `garbageCollect` drops the entry of every disconnected element. -/
theorem gc_lookup_none {s : St} {n : Nat} (h : (s.dom n).connected = false) :
    alookup n (garbageCollect s).changeLog = none := by
  show alookup n (s.changeLog.filter (fun q => (s.dom q.1).connected)) = none
  exact alookup_filter_fst_none (fun m => (s.dom m).connected) s.changeLog h

/-! ### Frame preservation: enhancement rules never touch the scheduler
or the singleton counters -/

@[simp] theorem frame_ensureEntry (s : St) (n : Nat) :
    frame (ensureEntry s n) = frame s := by
  unfold ensureEntry
  split <;> rfl

@[simp] theorem frame_trackAttrCapture (s : St) (n : Nat) (a : String) :
    frame (trackAttrCapture s n a) = frame s := by
  have h : frame (trackAttrCapture s n a) = frame (ensureEntry s n) := rfl
  rw [h, frame_ensureEntry]

@[simp] theorem frame_trackStyleCapture (s : St) (n : Nat) (p : String) :
    frame (trackStyleCapture s n p) = frame s := by
  have h : frame (trackStyleCapture s n p) = frame (ensureEntry s n) := rfl
  rw [h, frame_ensureEntry]

@[simp] theorem frame_setAttrTracked (s : St) (n : Nat) (a v : String) :
    frame (setAttrTracked s n a v) = frame s := by
  have h : frame (setAttrTracked s n a v) = frame (trackAttrCapture s n a) := rfl
  rw [h, frame_trackAttrCapture]

@[simp] theorem frame_removeAttrTracked (s : St) (n : Nat) (a : String) :
    frame (removeAttrTracked s n a) = frame s := by
  have h : frame (removeAttrTracked s n a) = frame (trackAttrCapture s n a) := rfl
  rw [h, frame_trackAttrCapture]

@[simp] theorem frame_setStyleTracked (s : St) (n : Nat) (p v : String) :
    frame (setStyleTracked s n p v) = frame s := by
  have h : frame (setStyleTracked s n p v) = frame (trackStyleCapture s n p) := rfl
  rw [h, frame_trackStyleCapture]

@[simp] theorem frame_addListener (s : St) (n : Nat) :
    frame (addListener s n) = frame s := rfl

@[simp] theorem frame_bumpFresh (s : St) : frame (bumpFresh s) = frame s := rfl

@[simp] theorem frame_announce (t : String) (s : St) :
    frame (announce t s) = frame s := by
  unfold announce
  split
  · rfl
  · split
    · rfl
    · split <;> rfl

@[simp] theorem frame_roleIfAbsent (s : St) (n : Nat) (r : String) :
    frame (roleIfAbsent s n r) = frame s := by
  unfold roleIfAbsent
  split <;> simp

theorem frame_foldl {α : Type} {f : St → α → St}
    (h : ∀ t x, frame (f t x) = frame t) :
    ∀ (l : List α) (s : St), frame (l.foldl f s) = frame s := by
  intro l
  induction l with
  | nil => intro s; rfl
  | cons a l ih =>
      intro s
      rw [List.foldl_cons, ih, h]

theorem frame_btnStep (s : St) (n : Nat) : frame (btnStep s n) = frame s := by
  unfold btnStep
  repeat' split
  all_goals simp [apply_ite frame]

theorem frame_linkStep (s : St) (n : Nat) : frame (linkStep s n) = frame s := by
  unfold linkStep
  repeat' split
  all_goals simp [apply_ite frame]

theorem frame_labelStep (s : St) (n : Nat) : frame (labelStep s n) = frame s := by
  unfold labelStep
  repeat' split
  all_goals simp [apply_ite frame]

theorem frame_placeholderStep (s : St) (n : Nat) :
    frame (placeholderStep s n) = frame s := by
  unfold placeholderStep
  repeat' split
  all_goals simp [apply_ite frame]

theorem frame_errorStep (s : St) (n : Nat) : frame (errorStep s n) = frame s := by
  unfold errorStep
  repeat' split
  all_goals simp [apply_ite frame]

theorem frame_clickableStep (s : St) (n : Nat) :
    frame (clickableStep s n) = frame s := by
  unfold clickableStep
  repeat' split
  all_goals simp [apply_ite frame]

theorem frame_dropdownStep (s : St) (n : Nat) :
    frame (dropdownStep s n) = frame s := by
  unfold dropdownStep
  split
  · rfl
  · dsimp only
    rcases hp : resolveDropdownPanel
        (setAttrTracked s n (A11Y_FLAG ++ "-dropdown") "1") n with _ | p
    · simp [apply_ite frame]
    · simp [apply_ite frame]

theorem frame_liveStep (s : St) (n : Nat) : frame (liveStep s n) = frame s := by
  unfold liveStep
  repeat' split
  all_goals simp [apply_ite frame]

theorem frame_sliderStep (s : St) (n : Nat) : frame (sliderStep s n) = frame s := by
  unfold sliderStep
  repeat' split
  all_goals simp [apply_ite frame]

theorem frame_tabFirstLoop (s : St) (tab i : Nat) :
    frame (tabFirstLoop s tab i) = frame s := by
  unfold tabFirstLoop
  dsimp only
  rcases hh : (s.dom tab).hrefHashTarget with _ | tgt
  · simp [apply_ite frame]
  · simp [apply_ite frame]

theorem frame_tabSecondLoop (s : St) (tab : Nat) :
    frame (tabSecondLoop s tab) = frame s := by
  unfold tabSecondLoop
  rcases hp : resolveTabPanel s tab with _ | p
  · rfl
  · simp [apply_ite frame]

theorem frame_tablistStep (s : St) (tl : Nat) :
    frame (tablistStep s tl) = frame s := by
  unfold tablistStep
  split
  · rfl
  · dsimp only
    have h1 : ∀ (t : St) (p : Nat × Nat), frame (tabFirstLoop t p.2 p.1) = frame t :=
      fun t p => frame_tabFirstLoop t p.2 p.1
    have h2 : ∀ (t : St) (tab : Nat),
        frame (addListener (addListener t tab) tab) = frame t := by
      intro t tab
      simp
    rw [frame_foldl h2, frame_foldl frame_tabSecondLoop, frame_foldl h1]
    simp [apply_ite frame]

theorem frame_dialogStep (s : St) (n : Nat) : frame (dialogStep s n) = frame s := by
  unfold dialogStep
  split
  · rfl
  · split
    · rfl
    · dsimp only
      rcases hh : (s.dom n).dialogHeading with _ | hd
      · simp [apply_ite frame]
      · simp [apply_ite frame]

theorem frame_enhanceUnlabeledButtons (s : St) :
    frame (enhanceUnlabeledButtons s) = frame s := by
  unfold enhanceUnlabeledButtons
  split
  · rfl
  · exact frame_foldl frame_btnStep _ _

theorem frame_enhanceUnlabeledLinks (s : St) :
    frame (enhanceUnlabeledLinks s) = frame s := by
  unfold enhanceUnlabeledLinks
  split
  · rfl
  · exact frame_foldl frame_linkStep _ _

theorem frame_enhanceInputsAndForms (s : St) :
    frame (enhanceInputsAndForms s) = frame s := by
  unfold enhanceInputsAndForms
  split
  · rfl
  · rw [frame_foldl frame_errorStep, frame_foldl frame_placeholderStep,
      frame_foldl frame_labelStep]

theorem frame_enhanceClickableRoles (s : St) :
    frame (enhanceClickableRoles s) = frame s := by
  unfold enhanceClickableRoles
  split
  · rfl
  · exact frame_foldl frame_clickableStep _ _

theorem frame_enhanceLocalDropdowns (s : St) :
    frame (enhanceLocalDropdowns s) = frame s := by
  unfold enhanceLocalDropdowns
  split
  · rfl
  · exact frame_foldl frame_dropdownStep _ _

theorem frame_enhanceLocalLiveRegions (s : St) :
    frame (enhanceLocalLiveRegions s) = frame s := by
  unfold enhanceLocalLiveRegions
  split
  · rfl
  · exact frame_foldl frame_liveStep _ _

theorem frame_enhanceSliders (s : St) :
    frame (enhanceSliders s) = frame s := by
  unfold enhanceSliders
  split
  · rfl
  · exact frame_foldl frame_sliderStep _ _

theorem frame_runLocalEnhancements (s : St) :
    frame (runLocalEnhancements s) = frame s := by
  unfold runLocalEnhancements
  rw [frame_enhanceSliders, frame_enhanceLocalLiveRegions,
    frame_enhanceLocalDropdowns, frame_enhanceClickableRoles,
    frame_enhanceInputsAndForms, frame_enhanceUnlabeledLinks,
    frame_enhanceUnlabeledButtons]

theorem frame_enhanceRegionsGlobal (s : St) :
    frame (enhanceRegionsGlobal s) = frame s := by
  unfold enhanceRegionsGlobal
  split
  · rfl
  · rw [frame_foldl (fun t n => frame_roleIfAbsent t n "complementary")]
    repeat' split
    all_goals simp

theorem frame_enhanceTabsGlobal (s : St) :
    frame (enhanceTabsGlobal s) = frame s := by
  unfold enhanceTabsGlobal
  split
  · rfl
  · exact frame_foldl frame_tablistStep _ _

theorem frame_enhanceDialogsGlobal (s : St) :
    frame (enhanceDialogsGlobal s) = frame s := by
  unfold enhanceDialogsGlobal
  split
  · rfl
  · exact frame_foldl frame_dialogStep _ _

theorem frame_enhanceStickyHeadersGlobal (s : St) :
    frame (enhanceStickyHeadersGlobal s) = frame s := by
  unfold enhanceStickyHeadersGlobal
  split
  · rfl
  · exact frame_foldl (fun t n => frame_setAttrTracked t n "aria-hidden" "true") _ _

theorem frame_normalizeTabIndexGlobal (s : St) :
    frame (normalizeTabIndexGlobal s) = frame s := by
  unfold normalizeTabIndexGlobal
  split
  · rfl
  · refine frame_foldl ?_ _ _
    intro t n
    repeat' split
    all_goals simp

theorem frame_enhanceInfiniteScrollGlobal (c : Nat) (s : St) :
    frame (enhanceInfiniteScrollGlobal c s) = frame s := by
  unfold enhanceInfiniteScrollGlobal
  repeat' split
  all_goals simp [apply_ite frame]

theorem frame_runGlobalEnhancements (c : Nat) (s : St) :
    frame (runGlobalEnhancements c s) = frame s := by
  unfold runGlobalEnhancements
  rw [frame_enhanceInfiniteScrollGlobal, frame_normalizeTabIndexGlobal,
    frame_enhanceStickyHeadersGlobal, frame_enhanceDialogsGlobal,
    frame_enhanceTabsGlobal, frame_enhanceRegionsGlobal]

/-- Component form of `frame_runLocalEnhancements`. -/
theorem runLocal_fields (s : St) :
    (runLocalEnhancements s).pendingItemCount = s.pendingItemCount ∧
    (runLocalEnhancements s).enhancementScheduled = s.enhancementScheduled ∧
    (runLocalEnhancements s).passLog = s.passLog ∧
    (runLocalEnhancements s).styleNodeCount = s.styleNodeCount ∧
    (runLocalEnhancements s).skipLinkNodeCount = s.skipLinkNodeCount ∧
    (runLocalEnhancements s).observerAttachCount = s.observerAttachCount ∧
    (runLocalEnhancements s).a11yEnabled = s.a11yEnabled ∧
    (runLocalEnhancements s).observerAttached = s.observerAttached := by
  have hf := frame_runLocalEnhancements s
  simp only [frame, Prod.mk.injEq] at hf
  exact hf

/-- Component form of `frame_runGlobalEnhancements`. -/
theorem runGlobal_fields (c : Nat) (s : St) :
    (runGlobalEnhancements c s).pendingItemCount = s.pendingItemCount ∧
    (runGlobalEnhancements c s).enhancementScheduled = s.enhancementScheduled ∧
    (runGlobalEnhancements c s).passLog = s.passLog ∧
    (runGlobalEnhancements c s).styleNodeCount = s.styleNodeCount ∧
    (runGlobalEnhancements c s).skipLinkNodeCount = s.skipLinkNodeCount ∧
    (runGlobalEnhancements c s).observerAttachCount = s.observerAttachCount ∧
    (runGlobalEnhancements c s).a11yEnabled = s.a11yEnabled ∧
    (runGlobalEnhancements c s).observerAttached = s.observerAttached := by
  have hf := frame_runGlobalEnhancements c s
  simp only [frame, Prod.mk.injEq] at hf
  exact hf

/-! ### Disabled guards: every rule is the identity when the engine is
off -/

theorem enhanceUnlabeledButtons_disabled {s : St} (h : s.a11yEnabled = false) :
    enhanceUnlabeledButtons s = s := by
  unfold enhanceUnlabeledButtons
  rw [h]
  rfl

theorem enhanceUnlabeledLinks_disabled {s : St} (h : s.a11yEnabled = false) :
    enhanceUnlabeledLinks s = s := by
  unfold enhanceUnlabeledLinks
  rw [h]
  rfl

theorem enhanceInputsAndForms_disabled {s : St} (h : s.a11yEnabled = false) :
    enhanceInputsAndForms s = s := by
  unfold enhanceInputsAndForms
  rw [h]
  rfl

theorem enhanceClickableRoles_disabled {s : St} (h : s.a11yEnabled = false) :
    enhanceClickableRoles s = s := by
  unfold enhanceClickableRoles
  rw [h]
  rfl

theorem enhanceLocalDropdowns_disabled {s : St} (h : s.a11yEnabled = false) :
    enhanceLocalDropdowns s = s := by
  unfold enhanceLocalDropdowns
  rw [h]
  rfl

theorem enhanceLocalLiveRegions_disabled {s : St} (h : s.a11yEnabled = false) :
    enhanceLocalLiveRegions s = s := by
  unfold enhanceLocalLiveRegions
  rw [h]
  rfl

theorem enhanceSliders_disabled {s : St} (h : s.a11yEnabled = false) :
    enhanceSliders s = s := by
  unfold enhanceSliders
  rw [h]
  rfl

theorem runLocalEnhancements_disabled {s : St} (h : s.a11yEnabled = false) :
    runLocalEnhancements s = s := by
  unfold runLocalEnhancements
  rw [enhanceUnlabeledButtons_disabled h, enhanceUnlabeledLinks_disabled h,
    enhanceInputsAndForms_disabled h, enhanceClickableRoles_disabled h,
    enhanceLocalDropdowns_disabled h, enhanceLocalLiveRegions_disabled h,
    enhanceSliders_disabled h]

theorem enhanceRegionsGlobal_disabled {s : St} (h : s.a11yEnabled = false) :
    enhanceRegionsGlobal s = s := by
  unfold enhanceRegionsGlobal
  rw [h]
  rfl

theorem enhanceTabsGlobal_disabled {s : St} (h : s.a11yEnabled = false) :
    enhanceTabsGlobal s = s := by
  unfold enhanceTabsGlobal
  rw [h]
  rfl

theorem enhanceDialogsGlobal_disabled {s : St} (h : s.a11yEnabled = false) :
    enhanceDialogsGlobal s = s := by
  unfold enhanceDialogsGlobal
  rw [h]
  rfl

theorem enhanceStickyHeadersGlobal_disabled {s : St} (h : s.a11yEnabled = false) :
    enhanceStickyHeadersGlobal s = s := by
  unfold enhanceStickyHeadersGlobal
  rw [h]
  rfl

theorem normalizeTabIndexGlobal_disabled {s : St} (h : s.a11yEnabled = false) :
    normalizeTabIndexGlobal s = s := by
  unfold normalizeTabIndexGlobal
  rw [h]
  rfl

theorem enhanceInfiniteScrollGlobal_disabled {s : St} (c : Nat)
    (h : s.a11yEnabled = false) : enhanceInfiniteScrollGlobal c s = s := by
  unfold enhanceInfiniteScrollGlobal
  rw [h]
  rfl

theorem runGlobalEnhancements_disabled {s : St} (c : Nat)
    (h : s.a11yEnabled = false) : runGlobalEnhancements c s = s := by
  unfold runGlobalEnhancements
  rw [enhanceRegionsGlobal_disabled h, enhanceTabsGlobal_disabled h,
    enhanceDialogsGlobal_disabled h, enhanceStickyHeadersGlobal_disabled h,
    normalizeTabIndexGlobal_disabled h, enhanceInfiniteScrollGlobal_disabled c h]

/-! ### Scheduler lemmas -/

theorem scheduleEnhancements_unscheduled {s : St} (c : Nat)
    (h : s.enhancementScheduled = false) :
    scheduleEnhancements c s =
      { s with pendingItemCount := s.pendingItemCount + c
             , enhancementScheduled := true } := by
  unfold scheduleEnhancements
  dsimp only
  rw [h]
  rfl

theorem scheduleEnhancements_scheduled {s : St} (c : Nat)
    (h : s.enhancementScheduled = true) :
    scheduleEnhancements c s =
      { s with pendingItemCount := s.pendingItemCount + c } := by
  unfold scheduleEnhancements
  dsimp only
  rw [h]
  rfl

theorem schedule_foldl_scheduled (l : List Nat) :
    ∀ (t : St), t.enhancementScheduled = true →
      l.foldl (fun x c => scheduleEnhancements c x) t
        = { t with pendingItemCount := t.pendingItemCount + l.sum } := by
  induction l with
  | nil =>
      intro t ht
      rfl
  | cons c l ih =>
      intro t ht
      show l.foldl _ (scheduleEnhancements c t) = _
      rw [scheduleEnhancements_scheduled c ht]
      rw [ih { t with pendingItemCount := t.pendingItemCount + c } ht]
      rw [List.sum_cons, ← Nat.add_assoc]

/-- Closed form of the queued-callback execution when a pass is in
flight. -/
theorem fireFrame_eq (s : St) (hs : s.enhancementScheduled = true) :
    fireFrame s = { (runGlobalEnhancements s.pendingItemCount
        { s with enhancementScheduled := false
               , passLog := s.passLog ++ [s.pendingItemCount] })
        with pendingItemCount := 0 } := by
  unfold fireFrame
  rw [if_pos hs]

/-- The queued-callback step is the identity when no pass is in flight. -/
theorem fireFrame_idle {s : St} (hs : ¬ s.enhancementScheduled = true) :
    fireFrame s = s := by
  unfold fireFrame
  rw [if_neg hs]

/-- Scheduler components of the queued-callback execution: the pass log
records exactly one pass carrying the accumulated count, and the count and
flag are reset. -/
theorem fireFrame_fields (s : St) (hs : s.enhancementScheduled = true) :
    (fireFrame s).passLog = s.passLog ++ [s.pendingItemCount] ∧
    (fireFrame s).pendingItemCount = 0 ∧
    (fireFrame s).enhancementScheduled = false := by
  unfold fireFrame
  rw [if_pos hs]
  dsimp only
  obtain ⟨g1, g2, g3, g4, g5, g6, g7, g8⟩ := runGlobal_fields s.pendingItemCount
    { s with enhancementScheduled := false
           , passLog := s.passLog ++ [s.pendingItemCount] }
  refine ⟨?_, rfl, ?_⟩
  · rw [g3]
  · rw [g2]

/-- Execution of the queued animation-frame callback on a disabled engine:
the pass silently skips (no document, ledger or announcement effect) and
the coalescing flag ends cleared. -/
theorem fireFrame_disabled {s : St} (h : s.a11yEnabled = false) :
    (fireFrame s).enhancementScheduled = false ∧
    (fireFrame s).dom = s.dom ∧
    (fireFrame s).changeLog = s.changeLog ∧
    (fireFrame s).announceLog = s.announceLog := by
  by_cases hs : s.enhancementScheduled
  · have hd : ({ s with
        enhancementScheduled := false
        passLog := s.passLog ++ [s.pendingItemCount] } : St).a11yEnabled
        = false := h
    rw [fireFrame_eq s hs, runGlobalEnhancements_disabled _ hd]
    exact ⟨rfl, rfl, rfl, rfl⟩
  · rw [fireFrame_idle hs]
    exact ⟨Bool.eq_false_iff.mpr hs, rfl, rfl, rfl⟩

/-! ### Lifecycle lemmas -/

theorem toggleOff_fields (s : St) :
    (toggleOff s).a11yEnabled = false ∧
    (toggleOff s).observerAttached = false ∧
    (toggleOff s).skipLinkPresent = false ∧
    (toggleOff s).liveRegionPresent = false ∧
    (toggleOff s).globalStylePresent = false ∧
    (toggleOff s).changeLog = [] ∧
    (toggleOff s).pendingItemCount = 0 ∧
    (toggleOff s).mutationCounter = 0 ∧
    (toggleOff s).enhancementScheduled = s.enhancementScheduled := by
  unfold toggleOff disableA11Y stopMutationObserver removeSkipLink
    removeLiveRegion removeGlobalStyles clearAllTrackedChanges
  dsimp only
  split
  · simp
  · next hobs => simp [Bool.eq_false_iff.mpr hobs]

theorem addGlobalStyles_present {s : St} (h : s.globalStylePresent = true) :
    addGlobalStyles s = s := by
  unfold addGlobalStyles
  rw [h]
  rfl

theorem addSkipLink_present {s : St} (h : s.skipLinkPresent = true) :
    addSkipLink s = s := by
  unfold addSkipLink
  rw [h]
  split <;> rfl

theorem startMutationObserver_attached {s : St} (h : s.observerAttached = true) :
    startMutationObserver s = s := by
  unfold startMutationObserver
  rw [if_pos h]

/-- `disable()` on a state whose disable-managed fields are already reset
is the identity: removals of absent state and resets of zeroed counters do
not change anything. -/
theorem toggleOff_clean {s : St} (hen : s.a11yEnabled = false)
    (hobs : s.observerAttached = false) (hskip : s.skipLinkPresent = false)
    (hlive : s.liveRegionPresent = false) (hsty : s.globalStylePresent = false)
    (hlog : s.changeLog = []) (hpend : s.pendingItemCount = 0)
    (hmut : s.mutationCounter = 0) : toggleOff s = s := by
  cases s
  simp_all [toggleOff, disableA11Y, stopMutationObserver, removeSkipLink,
    removeLiveRegion, removeGlobalStyles, clearAllTrackedChanges, rollbackFold]

/-- Re-entrant `disable()` is a no-op. -/
theorem toggleOff_idem (s : St) : toggleOff (toggleOff s) = toggleOff s := by
  obtain ⟨hen, hobs, hskip, hlive, hsty, hlog, hpend, hmut, _⟩ := toggleOff_fields s
  exact toggleOff_clean hen hobs hskip hlive hsty hlog hpend hmut

theorem removeFromTree_connected (s : St) (n : Nat) :
    ((removeFromTree s n).dom n).connected = false := by
  unfold removeFromTree
  dsimp only
  rw [updDom_same]

/-! ### Claims -/

/-- C1 (Rollback exactness): after any sequence of tracked writes
(`trackedSetAttribute` / `trackedRemoveAttribute` /
`trackedSetStyleProperty`) starting from an empty Ledger,
`rollbackAll` (`clearAllTrackedChanges`) restores every element's every
attribute to its exact value before the first tracked write to it (re-set
when a value was captured, removed on the absent sentinel), restores every
captured style property, and leaves the Ledger empty. -/
theorem rollback_exact (s0 : St) (ops : List WOp) (h : s0.changeLog = []) :
    (∀ n a, ((clearAllTrackedChanges (applyWOps s0 ops)).dom n).attrs a
        = (s0.dom n).attrs a) ∧
    (∀ n p, ((clearAllTrackedChanges (applyWOps s0 ops)).dom n).styles p
        = (s0.dom n).styles p) ∧
    (clearAllTrackedChanges (applyWOps s0 ops)).changeLog = [] := by
  have hres := clearAll_restores (Inv_applyWOps h ops)
  exact ⟨hres.1, hres.2, rfl⟩

/-- Witness for `rollback_exact`: a concrete state with a pre-set `role`
attribute and inline `color` style, and a write sequence that overwrites,
removes, and re-writes keys on two elements. -/
theorem rollback_exact_witness :
    exLedgerSt.changeLog = [] ∧
    ((∀ n a, ((clearAllTrackedChanges (applyWOps exLedgerSt exOps)).dom n).attrs a
        = (exLedgerSt.dom n).attrs a) ∧
     (∀ n p, ((clearAllTrackedChanges (applyWOps exLedgerSt exOps)).dom n).styles p
        = (exLedgerSt.dom n).styles p) ∧
     (clearAllTrackedChanges (applyWOps exLedgerSt exOps)).changeLog = []) :=
  ⟨rfl, rollback_exact exLedgerSt exOps rfl⟩

/-- C2 (Single-capture invariant): after any tracked-write sequence from an
empty Ledger, each element's entry captures every key at most once, and
every captured value equals the value the element carried before the first
tracked write — never an intermediate value. -/
theorem single_capture (s0 : St) (ops : List WOp) (h : s0.changeLog = [])
    (n : Nat) :
    ((entryFor (applyWOps s0 ops) n).attrs.map Prod.fst).Nodup ∧
    ((entryFor (applyWOps s0 ops) n).styles.map Prod.fst).Nodup ∧
    (∀ q ∈ (entryFor (applyWOps s0 ops) n).attrs, q.2 = (s0.dom n).attrs q.1) ∧
    (∀ q ∈ (entryFor (applyWOps s0 ops) n).styles, q.2 = (s0.dom n).styles q.1) := by
  have hinv := Inv_applyWOps h ops
  exact ⟨hinv.attr_nodup n, hinv.style_nodup n, hinv.attr_orig n, hinv.style_orig n⟩

/-- Witness for `single_capture` at the concrete state and write sequence
of `rollback_exact_witness`, element 0. -/
theorem single_capture_witness :
    exLedgerSt.changeLog = [] ∧
    (((entryFor (applyWOps exLedgerSt exOps) 0).attrs.map Prod.fst).Nodup ∧
     ((entryFor (applyWOps exLedgerSt exOps) 0).styles.map Prod.fst).Nodup ∧
     (∀ q ∈ (entryFor (applyWOps exLedgerSt exOps) 0).attrs,
        q.2 = (exLedgerSt.dom 0).attrs q.1) ∧
     (∀ q ∈ (entryFor (applyWOps exLedgerSt exOps) 0).styles,
        q.2 = (exLedgerSt.dom 0).styles q.1)) :=
  ⟨rfl, single_capture exLedgerSt exOps rfl 0⟩

/-- C5 (code bug): the local pass is not idempotent.  On a document with a
single visible, textless `<div class="clickable">` (no attributes), the
first `runLocalEnhancements` has `enhanceClickableRoles` write
`role="button"` and `tabindex="0"` (ledger captures: role, tabindex); on
the second pass the div now matches the `[role="button"]` selector of
`enhanceUnlabeledButtons`, carries no `aria-label`, and receives a tracked
`aria-label="Button"` write — the Ledger grows, contradicting the spec's
"no Ledger growth on the second pass". -/
theorem second_local_pass_writes :
    (entryFor (runLocalEnhancements exScene) 0).attrs.map Prod.fst
      = ["role", "tabindex"] ∧
    (entryFor (runLocalEnhancements (runLocalEnhancements exScene)) 0).attrs.map
        Prod.fst = ["role", "tabindex", "aria-label"] ∧
    getAttr (runLocalEnhancements exScene) 0 "aria-label" = none ∧
    getAttr (runLocalEnhancements (runLocalEnhancements exScene)) 0 "aria-label"
      = some "Button" := by
  refine ⟨by decide, by decide, by decide, by decide⟩

/-- C6 (GC correctness): after removing a tracked element from the tree,
`garbageCollect` leaves no Ledger entry for it; every surviving entry
belongs to a connected element; and a subsequent `rollbackAll` runs to
completion (it is a total function here, and ends with an empty Ledger). -/
theorem gc_correct (s : St) (n : Nat) :
    alookup n (garbageCollect (removeFromTree s n)).changeLog = none ∧
    (∀ q ∈ (garbageCollect s).changeLog, (s.dom q.1).connected = true) ∧
    (clearAllTrackedChanges (garbageCollect s)).changeLog = [] := by
  refine ⟨gc_lookup_none (removeFromTree_connected s n), ?_, rfl⟩
  intro q hq
  exact (List.mem_filter.mp hq).2

/-- Witness for `gc_correct` at a state with one tracked, detached
element. -/
theorem gc_correct_witness :
    alookup 0 (garbageCollect (removeFromTree exGcSt 0)).changeLog = none ∧
    (∀ q ∈ (garbageCollect exGcSt).changeLog, (exGcSt.dom q.1).connected = true) ∧
    (clearAllTrackedChanges (garbageCollect exGcSt)).changeLog = [] :=
  gc_correct exGcSt 0

/-- C8 (Passes no-op when disabled): with `a11yEnabled = false` both the
local and the global pass are the identity (no tracked writes, no Ledger
growth, no announcement), and a frame callback that was queued while
enabled but fires after a disable silently skips: it clears the coalescing
flag but leaves the document, the Ledger and the announcement log
untouched. -/
theorem passes_noop_when_disabled (s : St) (c : Nat)
    (h : s.a11yEnabled = false) :
    runLocalEnhancements s = s ∧
    runGlobalEnhancements c s = s ∧
    (fireFrame s).dom = s.dom ∧
    (fireFrame s).changeLog = s.changeLog ∧
    (fireFrame s).announceLog = s.announceLog ∧
    (fireFrame s).enhancementScheduled = false := by
  obtain ⟨f1, f2, f3, f4⟩ := fireFrame_disabled h
  exact ⟨runLocalEnhancements_disabled h, runGlobalEnhancements_disabled c h,
    f2, f3, f4, f1⟩

/-- Witness for `passes_noop_when_disabled` at the base (disabled) state
with a pending count of 3. -/
theorem passes_noop_when_disabled_witness :
    baseSt.a11yEnabled = false ∧
    (runLocalEnhancements baseSt = baseSt ∧
     runGlobalEnhancements 3 baseSt = baseSt ∧
     (fireFrame baseSt).dom = baseSt.dom ∧
     (fireFrame baseSt).changeLog = baseSt.changeLog ∧
     (fireFrame baseSt).announceLog = baseSt.announceLog ∧
     (fireFrame baseSt).enhancementScheduled = false) :=
  ⟨rfl, passes_noop_when_disabled baseSt 3 rfl⟩

/-- C9 (No tracked-write or rollback operation throws): a tracked write to
an absent attribute succeeds and captures the absent sentinel (not an
error); the raw write lands on the element; and `rollbackAll` is a total
operation that always ends with an empty Ledger and never changes any
element's connectivity — in particular it tolerates entries whose elements
are detached (the restore writes land harmlessly on the detached
element). -/
theorem tracked_ops_never_throw (s : St) (n : Nat) (a v : String)
    (h1 : (s.dom n).attrs a = none)
    (h2 : alookup a (entryFor s n).attrs = none) :
    alookup a (entryFor (setAttrTracked s n a v) n).attrs = some none ∧
    ((setAttrTracked s n a v).dom n).attrs a = some v ∧
    (clearAllTrackedChanges s).changeLog = [] ∧
    (∀ m, ((clearAllTrackedChanges s).dom m).connected = (s.dom m).connected) := by
  refine ⟨?_, ?_, rfl, ?_⟩
  · have he : entryFor (setAttrTracked s n a v) n
        = captureAttrFn ((s.dom n).attrs a) a (entryFor s n) :=
      entryFor_trackAttrCapture_self s n a
    rw [he, captureAttrFn, if_neg (by rw [h2]; simp)]
    show alookup a ((entryFor s n).attrs ++ [(a, (s.dom n).attrs a)]) = some none
    rw [alookup_append_none _ h2, alookup_single_self, h1]
  · show ((putDomAttr (trackAttrCapture s n a) n a (some v)).dom n).attrs a = some v
    rw [putDomAttr_dom_self]
    show upd ((trackAttrCapture s n a).dom n).attrs a (some v) a = some v
    unfold upd
    rw [if_pos rfl]
  · intro m
    exact rollbackFold_connected s.changeLog s.dom m

/-- Witness for `tracked_ops_never_throw`: writing the absent
`aria-label` attribute of element 0. -/
theorem tracked_ops_never_throw_witness :
    (exLedgerSt.dom 0).attrs "aria-label" = none ∧
    alookup "aria-label" (entryFor exLedgerSt 0).attrs = none ∧
    (alookup "aria-label"
        (entryFor (setAttrTracked exLedgerSt 0 "aria-label" "x") 0).attrs
      = some none ∧
     ((setAttrTracked exLedgerSt 0 "aria-label" "x").dom 0).attrs "aria-label"
      = some "x" ∧
     (clearAllTrackedChanges exLedgerSt).changeLog = [] ∧
     (∀ m, ((clearAllTrackedChanges exLedgerSt).dom m).connected
        = (exLedgerSt.dom m).connected)) :=
  ⟨by decide, by decide,
    tracked_ops_never_throw exLedgerSt 0 "aria-label" "x" (by decide) (by decide)⟩

/-- C10 (GC performs no DOM writes): `garbageCollect` leaves the document
untouched — it only deletes Ledger entries of disconnected elements — and
because the entry of a disconnected tracked element is discarded, a later
`rollbackAll` no longer restores that element: its tracked changes are
permanently irreversible. -/
theorem gc_performs_no_dom_writes (s : St) (n : Nat)
    (h : (s.dom n).connected = false) :
    (garbageCollect s).dom = s.dom ∧
    alookup n (garbageCollect s).changeLog = none ∧
    (clearAllTrackedChanges (garbageCollect s)).dom n = s.dom n := by
  refine ⟨rfl, gc_lookup_none h, ?_⟩
  show rollbackFold (garbageCollect s).changeLog (garbageCollect s).dom n = s.dom n
  have hnm : n ∉ (garbageCollect s).changeLog.map Prod.fst :=
    (alookup_eq_none_iff _ _).mp (gc_lookup_none h)
  rw [rollbackFold_not_mem hnm]
  rfl

/-- Witness for `gc_performs_no_dom_writes` at the tracked-then-detached
state: the `role="button"` write on the detached element 0 survives both
GC and a subsequent rollback. -/
theorem gc_performs_no_dom_writes_witness :
    (exGcSt.dom 0).connected = false ∧
    ((garbageCollect exGcSt).dom = exGcSt.dom ∧
     alookup 0 (garbageCollect exGcSt).changeLog = none ∧
     (clearAllTrackedChanges (garbageCollect exGcSt)).dom 0 = exGcSt.dom 0) :=
  ⟨by decide, gc_performs_no_dom_writes exGcSt 0 (by decide)⟩

/-- C3 (Coalescing): N calls to `scheduleEnhancements` from an idle
scheduler leave exactly one pending pass (the in-flight flag is set by the
first call and blocks re-queueing), accumulate the sum of the N counts,
and when the single queued frame callback fires, exactly one global pass
runs carrying that sum, after which the count is zero and the flag is
clear. -/
theorem coalescing_one_pass (s : St) (cs : List Nat)
    (h1 : s.enhancementScheduled = false) (h2 : s.pendingItemCount = 0)
    (h3 : cs ≠ []) :
    (cs.foldl (fun t c => scheduleEnhancements c t) s).enhancementScheduled = true ∧
    (cs.foldl (fun t c => scheduleEnhancements c t) s).pendingItemCount = cs.sum ∧
    (cs.foldl (fun t c => scheduleEnhancements c t) s).passLog = s.passLog ∧
    (fireFrame (cs.foldl (fun t c => scheduleEnhancements c t) s)).passLog
      = s.passLog ++ [cs.sum] ∧
    (fireFrame (cs.foldl (fun t c => scheduleEnhancements c t) s)).pendingItemCount
      = 0 ∧
    (fireFrame (cs.foldl (fun t c => scheduleEnhancements c t) s)).enhancementScheduled
      = false := by
  rcases cs with _ | ⟨c, l⟩
  · exact absurd rfl h3
  · have hfold : (c :: l).foldl (fun t c => scheduleEnhancements c t) s
        = { s with pendingItemCount := s.pendingItemCount + c + l.sum
                 , enhancementScheduled := true } := by
      show l.foldl _ (scheduleEnhancements c s) = _
      rw [scheduleEnhancements_unscheduled c h1,
        schedule_foldl_scheduled l _ rfl]
    have hsum : s.pendingItemCount + c + l.sum = (c :: l).sum := by
      rw [h2, List.sum_cons, Nat.zero_add]
    obtain ⟨p1, p2, p3⟩ := fireFrame_fields
      { s with pendingItemCount := s.pendingItemCount + c + l.sum
             , enhancementScheduled := true } rfl
    refine ⟨?_, ?_, ?_, ?_, ?_, ?_⟩
    · rw [hfold]
    · rw [hfold]
      exact hsum
    · rw [hfold]
    · rw [hfold, p1]
      show s.passLog ++ [s.pendingItemCount + c + l.sum] = _
      rw [hsum]
    · rw [hfold, p2]
    · rw [hfold, p3]

/-- Witness for `coalescing_one_pass`: two batches of 3 and 4 items from
the idle base state coalesce into one pass carrying 7. -/
theorem coalescing_one_pass_witness :
    baseSt.enhancementScheduled = false ∧ baseSt.pendingItemCount = 0 ∧
    ([3, 4] : List Nat) ≠ [] ∧
    ((([3, 4] : List Nat).foldl (fun t c => scheduleEnhancements c t)
        baseSt).enhancementScheduled = true ∧
     (([3, 4] : List Nat).foldl (fun t c => scheduleEnhancements c t)
        baseSt).pendingItemCount = ([3, 4] : List Nat).sum ∧
     (([3, 4] : List Nat).foldl (fun t c => scheduleEnhancements c t)
        baseSt).passLog = baseSt.passLog ∧
     (fireFrame (([3, 4] : List Nat).foldl (fun t c => scheduleEnhancements c t)
        baseSt)).passLog = baseSt.passLog ++ [([3, 4] : List Nat).sum] ∧
     (fireFrame (([3, 4] : List Nat).foldl (fun t c => scheduleEnhancements c t)
        baseSt)).pendingItemCount = 0 ∧
     (fireFrame (([3, 4] : List Nat).foldl (fun t c => scheduleEnhancements c t)
        baseSt)).enhancementScheduled = false) :=
  ⟨rfl, rfl, by decide, coalescing_one_pass baseSt [3, 4] rfl rfl (by decide)⟩

/-- C4 counterexample: disabling the engine while a global pass is pending
does not reset the coalescing flag — immediately after `disable()` returns
(the toggle handler clears `a11yEnabled` and calls `disableA11Y()`),
`enhancementScheduled` is still `true`, contradicting the claim that it is
back to its initial `false` value. -/
theorem disable_keeps_pending_flag :
    (toggleOff (scheduleEnhancements 5 exEnabledOn)).enhancementScheduled
      = true := by
  decide

/-- C4 (amended): after `disable()` returns, the Mutation Watcher is
detached, the skip-link, live-region and stylesheet singletons are
removed, the Ledger is empty, and `pendingItemCount` and `mutationCounter`
are zero; `enhancementScheduled` alone is NOT reset by `disable()` — it
keeps its previous value and is cleared only when the still-queued frame
callback fires, and that callback silently skips (no document, ledger or
announcement effect, per the disabled-engine re-check). -/
theorem disable_resets_state (s : St) :
    (toggleOff s).observerAttached = false ∧
    (toggleOff s).skipLinkPresent = false ∧
    (toggleOff s).liveRegionPresent = false ∧
    (toggleOff s).globalStylePresent = false ∧
    (toggleOff s).changeLog = [] ∧
    (toggleOff s).pendingItemCount = 0 ∧
    (toggleOff s).mutationCounter = 0 ∧
    (toggleOff s).enhancementScheduled = s.enhancementScheduled ∧
    (fireFrame (toggleOff s)).enhancementScheduled = false ∧
    (fireFrame (toggleOff s)).dom = (toggleOff s).dom ∧
    (fireFrame (toggleOff s)).changeLog = [] ∧
    (fireFrame (toggleOff s)).announceLog = (toggleOff s).announceLog := by
  obtain ⟨hen, hobs, hskip, hlive, hsty, hlog, hpend, hmut, hsch⟩ :=
    toggleOff_fields s
  obtain ⟨f1, f2, f3, f4⟩ := fireFrame_disabled hen
  exact ⟨hobs, hskip, hlive, hsty, hlog, hpend, hmut, hsch, f1, f2,
    f3.trans hlog, f4⟩

/-- C7 (Re-entrant lifecycle): calling `enable()` while already enabled
creates no second stylesheet, no second skip link and attaches no second
observer (the creation counters are unchanged), and `disable()` while
already disabled is a harmless no-op that leaves the state unchanged. -/
theorem reentrant_lifecycle (s : St) (hEn : s.a11yEnabled = true)
    (hSty : s.globalStylePresent = true) (hSkip : s.skipLinkPresent = true)
    (hObs : s.observerAttached = true) :
    (enableA11Y s).styleNodeCount = s.styleNodeCount ∧
    (enableA11Y s).skipLinkNodeCount = s.skipLinkNodeCount ∧
    (enableA11Y s).observerAttachCount = s.observerAttachCount ∧
    toggleOff (toggleOff s) = toggleOff s := by
  have he : enableA11Y s
      = startMutationObserver (runGlobalEnhancements 0 (runLocalEnhancements s)) := by
    unfold enableA11Y
    dsimp only
    rw [addGlobalStyles_present hSty, addSkipLink_present hSkip]
  have hl := runLocal_fields s
  have hg := runGlobal_fields 0 (runLocalEnhancements s)
  have hObs2 : (runGlobalEnhancements 0 (runLocalEnhancements s)).observerAttached
      = true := by
    rw [hg.2.2.2.2.2.2.2, hl.2.2.2.2.2.2.2]
    exact hObs
  rw [he, startMutationObserver_attached hObs2]
  refine ⟨?_, ?_, ?_, toggleOff_idem s⟩
  · rw [hg.2.2.2.1, hl.2.2.2.1]
  · rw [hg.2.2.2.2.1, hl.2.2.2.2.1]
  · rw [hg.2.2.2.2.2.1, hl.2.2.2.2.2.1]

/-- Witness for `reentrant_lifecycle` at the fully-enabled state. -/
theorem reentrant_lifecycle_witness :
    exEnabledFull.a11yEnabled = true ∧
    exEnabledFull.globalStylePresent = true ∧
    exEnabledFull.skipLinkPresent = true ∧
    exEnabledFull.observerAttached = true ∧
    ((enableA11Y exEnabledFull).styleNodeCount = exEnabledFull.styleNodeCount ∧
     (enableA11Y exEnabledFull).skipLinkNodeCount
        = exEnabledFull.skipLinkNodeCount ∧
     (enableA11Y exEnabledFull).observerAttachCount
        = exEnabledFull.observerAttachCount ∧
     toggleOff (toggleOff exEnabledFull) = toggleOff exEnabledFull) :=
  ⟨rfl, rfl, rfl, rfl, reentrant_lifecycle exEnabledFull rfl rfl rfl rfl⟩

end A11y
